import Mathlib

/-!
Shallow embedding of the GWFrames radiative-data core (`Code/Scri.cpp`):
spin-weighted fields on equiangular grids (`DataGrid`), spectral fields
(`Modes`), the boost rotor, per-slice radiative bundles (`SliceModes`),
and the supermomentum track (`SuperMomenta`) with its Moreschi iteration.

C++ `double` is modelled as `ℝ`, `std::complex<double>` as `ℂ`; machine
rounding is not modelled.  The external collaborators (the spinsfast
forward/backward transforms, the spin-weighted-harmonic point evaluator
and the GSL cubic spline) are bundled in an `ExtLib` record of opaque
function parameters; everything else is translated from the source.
-/

open Complex (I)

/-- Global constant `sqrt4pi` (Scri.cpp line 69). -/
noncomputable def sqrt4pi : ℝ := Real.sqrt (4 * Real.pi)

/-- Global constant `sqrt8pi` (Scri.cpp line 70). -/
noncomputable def sqrt8pi : ℝ := Real.sqrt (8 * Real.pi)

/-- Global constant `sqrt3` (Scri.cpp line 71). -/
noncomputable def sqrt3 : ℝ := Real.sqrt 3

/-- Global constant `sqrt3over2` (Scri.cpp line 72). -/
noncomputable def sqrt3over2 : ℝ := Real.sqrt 1.5

/-- The error kinds thrown by Scri.cpp (from Errors.hpp: the names used are
GWFrames_VectorSizeMismatch, GWFrames_ValueError,
GWFrames_BadWaveformInformation, GWFrames_NotYetImplemented). -/
inductive GWError where
  | vectorSizeMismatch
  | valueError
  | badWaveformInformation
  | notYetImplemented
deriving DecidableEq

/-- `GWFrames::ThreeVector` (a `std::vector<double>` of length 3),
with `x`,`y`,`z` standing for indices 0,1,2. -/
structure ThreeVector where
  x : ℝ
  y : ℝ
  z : ℝ

/-- Componentwise negation, for the `-v` passed to `Boost` in the
boosted-grid constructors. -/
def ThreeVector.neg (v : ThreeVector) : ThreeVector := ⟨-v.x, -v.y, -v.z⟩

/-- The external `Quaternions::Quaternion` type, modelled concretely as
four real components (w scalar part, x y z vector part). -/
structure Quat where
  w : ℝ
  x : ℝ
  y : ℝ
  z : ℝ

/-- Hamilton product (the external library's quaternion multiplication). -/
def Quat.mul (a b : Quat) : Quat :=
  ⟨a.w*b.w - a.x*b.x - a.y*b.y - a.z*b.z,
   a.w*b.x + a.x*b.w + a.y*b.z - a.z*b.y,
   a.w*b.y - a.x*b.z + a.y*b.w + a.z*b.x,
   a.w*b.z + a.x*b.y - a.y*b.x + a.z*b.w⟩

/-- Quaternion conjugate. -/
def Quat.conjugate (a : Quat) : Quat := ⟨a.w, -a.x, -a.y, -a.z⟩

/-- The `.vec()` accessor: the vector part as a three-vector. -/
def Quat.vec (a : Quat) : ThreeVector := ⟨a.x, a.y, a.z⟩

/-- Squared norm of a quaternion. -/
def Quat.normSq (a : Quat) : ℝ := a.w*a.w + a.x*a.x + a.y*a.y + a.z*a.z

/-- The `.abs()` accessor: Euclidean norm. -/
noncomputable def Quat.abs (a : Quat) : ℝ := Real.sqrt a.normSq

/-- Four-component dot product (`Quaternion::dot`). -/
def Quat.dot (a b : Quat) : ℝ := a.w*b.w + a.x*b.x + a.y*b.y + a.z*b.z

/-- Vector cross product of two (pure-vector) quaternions
(`Quaternion::cross`), returned as a pure quaternion. -/
def Quat.cross (a b : Quat) : Quat :=
  ⟨0, a.y*b.z - a.z*b.y, a.z*b.x - a.x*b.z, a.x*b.y - a.y*b.x⟩

/-- Scalar multiple of a quaternion. -/
def Quat.smul (c : ℝ) (a : Quat) : Quat := ⟨c*a.w, c*a.x, c*a.y, c*a.z⟩

/-- The `.normalized()` accessor. -/
noncomputable def Quat.normalized (a : Quat) : Quat := Quat.smul (1/a.abs) a

/-- Exponential of a quaternion (`Quaternions::exp`), via the standard
closed form `e^w (cos |u|, sin |u| * u/|u|)` for vector part `u`. -/
noncomputable def Quat.qexp (a : Quat) : Quat :=
  let r := Real.sqrt (a.x*a.x + a.y*a.y + a.z*a.z)
  Quat.smul (Real.exp a.w)
    ⟨Real.cos r, Real.sin r * (a.x/r), Real.sin r * (a.y/r), Real.sin r * (a.z/r)⟩

/-- Embedding of a three-vector as a pure quaternion
(the `Quaternion(v)` constructor). -/
def ofThree (v : ThreeVector) : Quat := ⟨0, v.x, v.y, v.z⟩

/-- The constant rotor `zHat` (Scri.cpp line 68). -/
def zHat : Quat := ⟨0, 0, 0, 1⟩

/-- The `Quaternion(vartheta, varphi)` constructor of the external library:
the rotor `exp(varphi/2 * zHat) * exp(vartheta/2 * yHat)` taking the pole
to the point at spherical angles (vartheta, varphi). -/
noncomputable def rotorFromAngles (vartheta varphi : ℝ) : Quat :=
  Quat.mul ⟨Real.cos (varphi/2), 0, 0, Real.sin (varphi/2)⟩
           ⟨Real.cos (vartheta/2), 0, Real.sin (vartheta/2), 0⟩

/-- `acosh` of the C math library, via its closed form
`acosh t = log (t + sqrt (t^2 - 1))`. -/
noncomputable def acosh (t : ℝ) : ℝ := Real.log (t + Real.sqrt (t^2 - 1))

/-- Euclidean norm of a three-vector, as computed inline in Scri.cpp
(lines 80, 101, 112). -/
noncomputable def absVec (v : ThreeVector) : ℝ :=
  Real.sqrt (v.x*v.x + v.y*v.y + v.z*v.z)

/-- `Rapidity` (Scri.cpp lines 77-82): `acosh(1/sqrt(1-|v|^2))`. -/
noncomputable def Rapidity (v : ThreeVector) : ℝ :=
  acosh (1.0 / Real.sqrt (1.0 - absVec v * absVec v))

/-- The small-boost early-return condition of `GWFrames::Boost`
(Scri.cpp line 102). -/
noncomputable abbrev boostTrivial (v : ThreeVector) : Prop :=
  absVec v < 1e-14 ∨ |1 - Real.exp (Rapidity v)| < 1e-14

/-- `GWFrames::Boost` (Scri.cpp lines 87-135): the rotor taking direction
`n` into its boosted image.  Throws `GWFrames_ValueError` when `|n| = 0`
(and that check is reached only after the small-boost early return). -/
noncomputable def Boost (v n : ThreeVector) : Except GWError Quat :=
  if boostTrivial v then .ok ⟨1, 0, 0, 0⟩
  else
    let absv := absVec v
    let v1 : ThreeVector := ⟨v.x/absv, v.y/absv, v.z/absv⟩
    let absn := absVec n
    if absn = 0 then .error .valueError
    else
      let n1 : ThreeVector := ⟨n.x/absn, n.y/absn, n.z/absn⟩
      let Theta := Real.arccos (n1.x*v1.x + n1.y*v1.y + n1.z*v1.z)
      let ThetaPrime := 2 * Real.arctan (Real.exp (Rapidity v) * Real.tan (0.5*Theta))
      let vn := Quat.cross (ofThree v1) (ofThree n1)
      if Quat.abs vn < 1e-14 then .ok ⟨1, 0, 0, 0⟩
      else .ok (Quat.qexp (Quat.smul (0.5*(ThetaPrime - Theta)) vn.normalized))

/-- `GWFrames::DataGrid`: values of a spin-weighted field on an
equiangular grid, row-major by theta then phi (Scri.cpp lines 138-362).
`s` is the spin weight, the flat `data` has `n_theta*n_phi` entries. -/
structure DataGrid where
  s : ℤ
  n_theta : ℕ
  n_phi : ℕ
  data : List ℂ

/-- Element access `grid[i]`, with 0 as the out-of-range default. -/
def DataGrid.get (g : DataGrid) (i : ℕ) : ℂ := g.data.getD i 0

/-- `DataGrid::operator*` (Scri.cpp lines 205-232): `B` is `*this` (the
left operand), `A` the argument; grid dimensions must match, data
multiplies pointwise, spins add. -/
def DataGrid.mul (B A : DataGrid) : Except GWError DataGrid :=
  if B.n_theta ≠ A.n_theta ∨ B.n_phi ≠ A.n_phi then .error .vectorSizeMismatch
  else .ok ⟨B.s + A.s, B.n_theta, B.n_phi, B.data.mapIdx fun i c => c * A.get i⟩

/-- `DataGrid::operator/` (Scri.cpp lines 234-261): pointwise division,
spins subtract. -/
noncomputable def DataGrid.div (B A : DataGrid) : Except GWError DataGrid :=
  if B.n_theta ≠ A.n_theta ∨ B.n_phi ≠ A.n_phi then .error .vectorSizeMismatch
  else .ok ⟨B.s - A.s, B.n_theta, B.n_phi, B.data.mapIdx fun i c => c / A.get i⟩

/-- `DataGrid::operator+` (Scri.cpp lines 263-289): pointwise addition.
The source checks only the grid dimensions; the result is a copy of the
left operand (so it keeps the left operand's spin). -/
def DataGrid.add (B A : DataGrid) : Except GWError DataGrid :=
  if B.n_theta ≠ A.n_theta ∨ B.n_phi ≠ A.n_phi then .error .vectorSizeMismatch
  else .ok ⟨B.s, B.n_theta, B.n_phi, B.data.mapIdx fun i c => c + A.get i⟩

/-- `DataGrid::operator-` (Scri.cpp lines 291-317): pointwise subtraction;
like addition it checks only the grid dimensions. -/
def DataGrid.sub (B A : DataGrid) : Except GWError DataGrid :=
  if B.n_theta ≠ A.n_theta ∨ B.n_phi ≠ A.n_phi then .error .vectorSizeMismatch
  else .ok ⟨B.s, B.n_theta, B.n_phi, B.data.mapIdx fun i c => c - A.get i⟩

/-- `DataGrid::pow` (Scri.cpp lines 319-326): every sample raised to the
integer power `p`, spin untouched. -/
def DataGrid.pow (g : DataGrid) (p : ℕ) : DataGrid :=
  ⟨g.s, g.n_theta, g.n_phi, g.data.map fun c => c ^ p⟩

/-- `GWFrames::operator*(double, DataGrid)` (Scri.cpp lines 328-335). -/
def rmulG (a : ℝ) (b : DataGrid) : DataGrid :=
  ⟨b.s, b.n_theta, b.n_phi, b.data.map fun c => c * (a : ℂ)⟩

/-- `GWFrames::operator/(double, DataGrid)` (Scri.cpp lines 337-344):
pointwise `a / value`. -/
noncomputable def rdivG (a : ℝ) (b : DataGrid) : DataGrid :=
  ⟨b.s, b.n_theta, b.n_phi, b.data.map fun c => (a : ℂ) / c⟩

/-- `GWFrames::operator+(double, DataGrid)` (Scri.cpp lines 346-353). -/
def raddG (a : ℝ) (b : DataGrid) : DataGrid :=
  ⟨b.s, b.n_theta, b.n_phi, b.data.map fun c => (a : ℂ) + c⟩

/-- `GWFrames::operator-(double, DataGrid)` (Scri.cpp lines 355-362):
pointwise `a - value`. -/
def rsubG (a : ℝ) (b : DataGrid) : DataGrid :=
  ⟨b.s, b.n_theta, b.n_phi, b.data.map fun c => (a : ℂ) - c⟩

/-- The theta index of flat grid position `ig` (the loops in Scri.cpp run
`ig` row-major over theta then phi). -/
def iTheta (n_phi ig : ℕ) : ℕ := ig / n_phi

/-- The phi index of flat grid position `ig`. -/
def iPhi (n_phi ig : ℕ) : ℕ := ig % n_phi

/-- `GWFrames::ConformalFactorGrid` (Scri.cpp lines 366-383):
`K(theta,phi) = 1/(gamma(1 - v.n))` sampled on the equiangular grid,
returned with spin 0. -/
noncomputable def ConformalFactorGrid (v : ThreeVector) (n_theta n_phi : ℕ) : DataGrid :=
  let dtheta := Real.pi / ((n_theta : ℝ) - 1)
  let dphi := 2*Real.pi / (n_phi : ℝ)
  let gamma := 1.0 / Real.sqrt (1 - v.x*v.x - v.y*v.y - v.z*v.z)
  ⟨0, n_theta, n_phi, (List.range (n_theta*n_phi)).map fun ig =>
    let theta := dtheta * (iTheta n_phi ig : ℝ)
    let phi := dphi * (iPhi n_phi ig : ℝ)
    ((1.0/(gamma*(1 - v.x*Real.cos phi*Real.sin theta
                    - v.y*Real.sin phi*Real.sin theta
                    - v.z*Real.cos theta)) : ℝ) : ℂ)⟩

/-- `GWFrames::InverseConformalFactorGrid` (Scri.cpp lines 386-402):
`1/K = gamma(1 - v.n)` sampled on the equiangular grid, spin 0. -/
noncomputable def InverseConformalFactorGrid (v : ThreeVector) (n_theta n_phi : ℕ) : DataGrid :=
  let dtheta := Real.pi / ((n_theta : ℝ) - 1)
  let dphi := 2*Real.pi / (n_phi : ℝ)
  let gamma := 1.0 / Real.sqrt (1 - v.x*v.x - v.y*v.y - v.z*v.z)
  ⟨0, n_theta, n_phi, (List.range (n_theta*n_phi)).map fun ig =>
    let theta := dtheta * (iTheta n_phi ig : ℝ)
    let phi := dphi * (iPhi n_phi ig : ℝ)
    ((gamma*(1 - v.x*Real.cos phi*Real.sin theta
               - v.y*Real.sin phi*Real.sin theta
               - v.z*Real.cos theta) : ℝ) : ℂ)⟩

/-- The `InverseConformalFactorFunctor` (Scri.cpp lines 404-415):
`gamma * (1 - v . (R zHat R*))`. -/
noncomputable def invConfFunctor (v : ThreeVector) (R : Quat) : ℝ :=
  (1.0 / Real.sqrt (1 - v.x*v.x - v.y*v.y - v.z*v.z))
    * (1 - Quat.dot (ofThree v) ((R.mul zHat).mul R.conjugate))

/-- The boosted-grid-by-functor constructor `DataGrid::DataGrid(Spin,
N_theta, N_phi, v, f)` (Scri.cpp lines 178-203): for every grid point the
rotor `Rp` takes the pole to that point, `R_b` is the boost rotor for the
negated velocity at that direction, and the functor is evaluated at
`R_b*Rp`.  `Boost` can throw, so the construction is fallible. -/
noncomputable def DataGrid.ofFunctor (Spin : ℤ) (N_theta N_phi : ℕ) (v : ThreeVector)
    (f : Quat → ℝ) : Except GWError DataGrid := do
  let dtheta := Real.pi / ((N_theta : ℝ) - 1)
  let dphi := 2*Real.pi / (N_phi : ℝ)
  let data ← (List.range (N_theta*N_phi)).mapM fun ig => do
    let Rp := rotorFromAngles (dtheta * (iTheta N_phi ig : ℝ)) (dphi * (iPhi N_phi ig : ℝ))
    let Rb ← Boost v.neg ((Rp.mul zHat |>.mul Rp.conjugate).vec)
    pure ((f (Rb.mul Rp) : ℝ) : ℂ)
  pure ⟨Spin, N_theta, N_phi, data⟩

/-- `GWFrames::InverseConformalFactorBoostedGrid` (Scri.cpp lines
416-420): the inverse conformal factor evaluated through the boosted-grid
functor constructor. -/
noncomputable def InverseConformalFactorBoostedGrid (v : ThreeVector) (n_theta n_phi : ℕ) :
    Except GWError DataGrid :=
  DataGrid.ofFunctor 0 n_theta n_phi v (invConfFunctor v)

/-- The external collaborators of Scri.cpp, as opaque function
parameters: `salm2map` is `spinsfast_salm2map` (spin, n_theta, n_phi,
ellMax, coefficient list -> grid values), `map2salm` is
`spinsfast_map2salm` (spin, n_theta, n_phi, ellMax, grid values ->
coefficients), `swsh` evaluates the spin-weighted spherical harmonic
`Y(s, ell, m)` at a rotor, and `splineEval` is the GSL cubic-spline
interpolation (sample times, sample values, evaluation point). -/
structure ExtLib where
  salm2map : ℤ → ℕ → ℕ → ℕ → List ℂ → ℕ → ℂ
  map2salm : ℤ → ℕ → ℕ → ℕ → List ℂ → ℕ → ℂ
  swsh : ℤ → ℕ → ℤ → Quat → ℂ
  splineEval : List ℝ → List ℝ → ℝ → ℝ

/-- `N_lm(ellMax)`: the number of (ell,m) coefficients through degree
`ellMax`, `sum_(ell<=ellMax) (2 ell + 1) = (ellMax+1)^2`. -/
def N_lm (ellMax : ℕ) : ℕ := (ellMax+1)*(ellMax+1)

/-- The flat index of mode (ell, m) in the canonical (ell, then m from
-ell to ell) order: `ell^2 + ell + m`. -/
def lmIdx (ell : ℕ) (m : ℤ) : ℤ := (ell:ℤ)*ell + ell + m

/-- Integer square root (used to recover the degree `ell` of a flat mode
index: indices `ell^2 <= i < (ell+1)^2` belong to the `ell` block). -/
def floorSqrt (n : ℕ) : ℕ :=
  ((List.range (n+1)).filter fun k => k*k ≤ n).length - 1

/-- The degree of flat mode index `i` (the `ell` of the block containing
`i` in the loops of Scri.cpp). -/
def ellOf (i : ℕ) : ℕ := floorSqrt i

/-- The order of flat mode index `i`: `m = i - ell^2 - ell`. -/
def mOf (i : ℕ) : ℤ := (i:ℤ) - (ellOf i : ℤ)*(ellOf i) - (ellOf i)

/-- `GWFrames::Modes`: spin-weighted spherical-harmonic coefficients up
to degree `ellMax`, in the canonical flat order (Scri.cpp lines 425-699).
The data invariant of the source is `data.length = N_lm ellMax`. -/
structure Modes where
  s : ℤ
  ellMax : ℕ
  data : List ℂ

/-- Element access `modes[i]`, with 0 as the out-of-range default. -/
def Modes.get (M : Modes) (i : ℕ) : ℂ := M.data.getD i 0

/-- The `Modes(DataGrid, L)` constructor (Scri.cpp lines 449-455):
`ellMax = max(min((n_theta-1)/2, (n_phi-1)/2), L)` and the data comes
from the backward transform `spinsfast_map2salm`. -/
def Modes.ofGrid (E : ExtLib) (D : DataGrid) (L : ℕ) : Modes :=
  let e := max (min ((D.n_theta - 1)/2) ((D.n_phi - 1)/2)) L
  ⟨D.s, e, (List.range (N_lm e)).map (E.map2salm D.s D.n_theta D.n_phi e D.data)⟩

/-- The `DataGrid(Modes, N_theta, N_phi)` constructor (Scri.cpp lines
155-161): grid dimensions are at least `2*ellMax+1` in each direction and
the data comes from the forward transform `spinsfast_salm2map`. -/
def DataGrid.ofModes (E : ExtLib) (M : Modes) (N_theta N_phi : ℕ) : DataGrid :=
  let nt := max N_theta (2*M.ellMax+1)
  let np := max N_phi (2*M.ellMax+1)
  ⟨M.s, nt, np, (List.range (nt*np)).map (E.salm2map M.s nt np M.ellMax M.data)⟩

/-- The `DataGrid(const int size)` constructor.  Modelled from the spec:
the constructor lives in the repository's header (not under src/); it is
used for the bare interpolation-output grid of size
`n_theta2*n_phi2` in the BMS transformations (spec section 4.4), so it
carries spin 0 and square dimensions recovering that resolution. -/
def DataGrid.ofSize (size : ℕ) : DataGrid :=
  ⟨0, floorSqrt size, floorSqrt size, List.replicate size 0⟩

/-- `Modes::EvaluateAtPoint(R)` (Scri.cpp lines 666-685): the sum of
`data[i] * Y(s, ell, m; R)` over all modes, with the spin-weighted
harmonic supplied externally. -/
def Modes.evaluateAtPoint (E : ExtLib) (M : Modes) (R : Quat) : ℂ :=
  ((List.range (N_lm M.ellMax)).map fun i => M.get i * E.swsh M.s (ellOf i) (mOf i) R).sum

/-- The boosted-grid constructor `DataGrid(Modes, v, N_theta, N_phi)`
(Scri.cpp lines 163-175): dimensions at least `2*ellMax+1`, and every
grid point evaluates the spectral field at `R_b*Rp` where `Rp` takes the
pole to the grid point and `R_b` is the boost rotor of `-v` there. -/
noncomputable def DataGrid.ofModesBoosted (E : ExtLib) (M : Modes) (v : ThreeVector)
    (N_theta N_phi : ℕ) : Except GWError DataGrid := do
  let nt := max N_theta (2*M.ellMax+1)
  let np := max N_phi (2*M.ellMax+1)
  let dtheta := Real.pi / ((nt : ℝ) - 1)
  let dphi := 2*Real.pi / (np : ℝ)
  let data ← (List.range (nt*np)).mapM fun ig => do
    let Rp := rotorFromAngles (dtheta * (iTheta np ig : ℝ)) (dphi * (iPhi np ig : ℝ))
    let Rb ← Boost v.neg ((Rp.mul zHat |>.mul Rp.conjugate).vec)
    pure (M.evaluateAtPoint E (Rb.mul Rp))
  pure ⟨M.s, nt, np, data⟩

/-- `Modes::bar` (Scri.cpp lines 464-472): conjugate every coefficient
and negate the spin. -/
def Modes.bar (M : Modes) : Modes :=
  ⟨-M.s, M.ellMax, M.data.map fun c => (starRingEnd ℂ) c⟩

/-- The mode loops of `edth`, `edthbar` and `edth2edthbar2` (Scri.cpp
lines 575-580, 619-624, 634-639): walk the flat data in blocks of
`2*ell+1` entries for `ell = 0, 1, ...` (the fuel is the number of
remaining blocks) and multiply each block by its degree's factor. -/
def scaleBlocks (factor : ℕ → ℝ) : ℕ → ℕ → List ℂ → List ℂ
  | _, 0, d => d
  | ell, fuel+1, d =>
      ((d.take (2*ell+1)).map fun c => c * (factor ell : ℂ))
        ++ scaleBlocks factor (ell+1) fuel (d.drop (2*ell+1))

/-- The per-degree factor of `Modes::edth` (Scri.cpp line 576):
0 below `ellMin = |s+1|`, else `sqrt((ell-s)(ell+s+1)/2)`. -/
noncomputable def edthFactor (s : ℤ) (ell : ℕ) : ℝ :=
  if (ell:ℤ) < |s+1| then 0
  else Real.sqrt (((ell:ℝ) - (s:ℝ)) * ((ell:ℝ) + (s:ℝ) + 1) / 2)

/-- The per-degree factor of `Modes::edthbar` (Scri.cpp line 620):
0 below `ellMin = |s-1|`, else `-sqrt((ell+s)(ell-s+1)/2)`. -/
noncomputable def edthbarFactor (s : ℤ) (ell : ℕ) : ℝ :=
  if (ell:ℤ) < |s-1| then 0
  else -Real.sqrt (((ell:ℝ) + (s:ℝ)) * ((ell:ℝ) - (s:ℝ) + 1) / 2)

/-- The per-degree factor of `Modes::edth2edthbar2` (Scri.cpp line 635):
`(ell-1) ell (ell+1) (ell+2)`. -/
def edth2edthbar2Factor (ell : ℕ) : ℝ :=
  ((ell:ℝ) - 1) * (ell:ℝ) * ((ell:ℝ) + 1) * ((ell:ℝ) + 2)

/-- `Modes::edth` (Scri.cpp lines 542-584): scale each degree block by
`edthFactor` and raise the spin by 1. -/
noncomputable def Modes.edth (M : Modes) : Modes :=
  ⟨M.s + 1, M.ellMax, scaleBlocks (edthFactor M.s) 0 (M.ellMax+1) M.data⟩

/-- `Modes::edthbar` (Scri.cpp lines 586-628): scale each degree block by
`edthbarFactor` and lower the spin by 1. -/
noncomputable def Modes.edthbar (M : Modes) : Modes :=
  ⟨M.s - 1, M.ellMax, scaleBlocks (edthbarFactor M.s) 0 (M.ellMax+1) M.data⟩

/-- `Modes::edth2edthbar2` (Scri.cpp lines 631-642): scale each degree
block by `(ell-1) ell (ell+1) (ell+2)`, spin unchanged. -/
def Modes.edth2edthbar2 (M : Modes) : Modes :=
  ⟨M.s, M.ellMax, scaleBlocks edth2edthbar2Factor 0 (M.ellMax+1) M.data⟩

/-- `Modes::operator+` (Scri.cpp lines 488-510): spins must agree
(else `GWFrames_BadWaveformInformation`); the larger data set is copied
(ties keep `*this`) and the smaller is added entrywise, higher modes of
the shorter operand counting as zero. -/
def Modes.add (X M : Modes) : Except GWError Modes :=
  if X.s ≠ M.s then .error .badWaveformInformation
  else
    let A := if M.data.length ≤ X.data.length then X else M
    let B := if M.data.length ≤ X.data.length then M else X
    .ok ⟨A.s, A.ellMax, A.data.mapIdx fun i c => c + B.get i⟩

/-- `Modes::operator-` (Scri.cpp lines 512-540): spins must agree; the
result has the longer operand's length/ellMax, subtracting entrywise with
missing modes of the shorter operand counting as zero. -/
def Modes.sub (X M : Modes) : Except GWError Modes :=
  if X.s ≠ M.s then .error .badWaveformInformation
  else if M.data.length ≤ X.data.length then
    .ok ⟨X.s, X.ellMax, X.data.mapIdx fun i c => c - M.get i⟩
  else
    .ok ⟨M.s, M.ellMax, (List.range M.data.length).map fun i => X.get i - M.get i⟩

/-- `Modes::operator*` (Scri.cpp lines 474-479): transform both operands
to grids of resolution `2L+1` with `L` the *sum* of the two degrees (to
capture mode mixing), multiply pointwise, transform back requesting at
least `max` of the degrees, and add the spins. -/
def Modes.mul (E : ExtLib) (X M : Modes) : Except GWError Modes := do
  let L := X.ellMax + M.ellMax
  let C ← DataGrid.mul (DataGrid.ofModes E X (2*L+1) (2*L+1))
                       (DataGrid.ofModes E M (2*L+1) (2*L+1))
  let A := Modes.ofGrid E C (max X.ellMax M.ellMax)
  pure ⟨X.s + M.s, A.ellMax, A.data⟩

/-- `Modes::operator/` (Scri.cpp lines 481-486): as multiplication but
dividing pointwise and subtracting the spins. -/
noncomputable def Modes.div (E : ExtLib) (X M : Modes) : Except GWError Modes := do
  let L := X.ellMax + M.ellMax
  let C ← DataGrid.div (DataGrid.ofModes E X (2*L+1) (2*L+1))
                       (DataGrid.ofModes E M (2*L+1) (2*L+1))
  let A := Modes.ofGrid E C (max X.ellMax M.ellMax)
  pure ⟨X.s - M.s, A.ellMax, A.data⟩

/-- `Modes::pow(3)`.  Modelled from the spec: `Modes::pow` is declared in
the repository's header (not under src/); the spec (section 4.5) uses it
only as the pointwise cube `(1/K)^3` of a spectral field, so it is
modelled as iterated `Modes` multiplication. -/
def Modes.pow3 (E : ExtLib) (M : Modes) : Except GWError Modes := do
  let a ← Modes.mul E M M
  Modes.mul E a M

/-- `GWFrames::vFromOneOverK` (Scri.cpp lines 688-699): the boost
velocity recovered from the ell<=1 modes of the inverse conformal
factor. -/
noncomputable def vFromOneOverK (K : Modes) : ThreeVector :=
  ⟨((sqrt3over2 : ℂ) * (K.get 3 - K.get 1) / K.get 0).re,
   (I * (sqrt3over2 : ℂ) * (K.get 3 + K.get 1) / K.get 0).re,
   (-(sqrt3 : ℂ) * K.get 2 / K.get 0).re⟩

/-- `GWFrames::SliceOfScri<Modes>` / `SliceModes` (Scri.cpp lines
703-732): the seven spectral members of one slice.  The `SliceOfScri`
constructor gives them spins +2,+1,0,-1,-2 for psi0..psi4 and +2 for
sigma and sigmadot. -/
structure SliceModes where
  psi0 : Modes
  psi1 : Modes
  psi2 : Modes
  psi3 : Modes
  psi4 : Modes
  sigma : Modes
  sigmadot : Modes

/-- `GWFrames::SliceOfScri<DataGrid>` / `SliceGrid`: the same bundle on
grids, as produced by `BMSTransformationOnSlice`. -/
structure SliceGrid where
  psi0 : DataGrid
  psi1 : DataGrid
  psi2 : DataGrid
  psi3 : DataGrid
  psi4 : DataGrid
  sigma : DataGrid
  sigmadot : DataGrid

/-- `SliceModes::EllMax` (Scri.cpp lines 735-747): the largest `ellMax`
over the seven members. -/
def SliceModes.EllMax (S : SliceModes) : ℕ :=
  max S.psi0.ellMax
    (max S.psi1.ellMax
      (max S.psi2.ellMax
        (max S.psi3.ellMax
          (max S.psi4.ellMax (max S.sigma.ellMax S.sigmadot.ellMax)))))

/-- `SliceModes::SuperMomentum` (Scri.cpp lines 772-776):
`psi2 + sigma*sigmadot.bar() + sigma.bar().edth().edth()`. -/
noncomputable def SliceModes.SuperMomentum (E : ExtLib) (S : SliceModes) :
    Except GWError Modes := do
  let prod ← Modes.mul E S.sigma S.sigmadot.bar
  let a ← Modes.add S.psi2 prod
  Modes.add a S.sigma.bar.edth.edth

/-- The four-momentum extracted from a supermomentum (the shared formulas
of `SliceModes::FourMomentum`, Scri.cpp lines 756-770, repeated verbatim
in `SuperMomenta::MoreschiIteration`, lines 1134-1142). -/
noncomputable def fourMomentumOfPsi (Psi : Modes) : ℝ × ℝ × ℝ × ℝ :=
  ((Psi.get 0).re / sqrt4pi,
   (Psi.get 1 - Psi.get 3).re / (sqrt3*sqrt8pi),
   -(I*(Psi.get 1 + Psi.get 3)).re / (sqrt3*sqrt8pi),
   (Psi.get 2).re / (sqrt3*sqrt4pi))

/-- The Bondi mass of a supermomentum: the Minkowski norm of its
four-momentum (`SliceModes::Mass`, Scri.cpp lines 750-753, repeated in
`SuperMomenta::MoreschiIteration`, line 1143). -/
noncomputable def massOfPsi (Psi : Modes) : ℝ :=
  let p := fourMomentumOfPsi Psi
  Real.sqrt (p.1*p.1 - p.2.1*p.2.1 - p.2.2.1*p.2.2.1 - p.2.2.2*p.2.2.2)

/-- `SliceModes::MoreschiIteration` (Scri.cpp lines 820-845), the
per-slice stub.  It computes the supermomentum and mass, OVERWRITES the
by-reference argument `OneOverK_ip1` with the four ell<=1 values
`Psi[i]/M` (as a fresh `Modes(4)` with `ellMax = 1`), and then throws
`GWFrames_NotYetImplemented`, leaving `delta_ip1` untouched.  The result
records the error thrown together with the final state of the two
by-reference arguments. -/
noncomputable def SliceModes.MoreschiIteration (E : ExtLib) (S : SliceModes)
    (OneOverK_ip1 delta_ip1 : Modes) : GWError × Modes × Modes :=
  match S.SuperMomentum E with
  | .error e => (e, OneOverK_ip1, delta_ip1)
  | .ok Psi =>
    let M := massOfPsi Psi
    (.notYetImplemented,
     ⟨0, 1, [Psi.get 0 / (M:ℂ), Psi.get 1 / (M:ℂ), Psi.get 2 / (M:ℂ), Psi.get 3 / (M:ℂ)]⟩,
     delta_ip1)

/-- The backward search for `iMax` in the windowed BMS transforms
(Scri.cpp lines 968-969 and 1065-1066): start at `t.size()-1` and step
down while `t[iMax] > uMax` and `iMax > 0`. -/
def iMaxLoop [LinearOrder α] (t : List α) (uMax : α) : ℕ → ℕ
  | 0 => 0
  | i+1 => if uMax < t.getD (i+1) uMax then iMaxLoop t uMax i else i+1

/-- The forward search for `iMin` (Scri.cpp lines 970-971 and 1067-1068):
start at 0 and step up while `t[iMin] < uMin` and `iMin < t.size()-1`
(the fuel counts the remaining steps to `t.size()-1`). -/
def iMinLoop [LinearOrder α] (t : List α) (uMin : α) (i fuel : ℕ) : ℕ :=
  match fuel with
  | 0 => i
  | f+1 => if t.getD i uMin < uMin then iMinLoop t uMin (i+1) f else i

/-- The padded time-index window of the multi-slice BMS transforms
(Scri.cpp lines 968-973 and 1065-1070): bracket `[uMin, uMax]` with
`iMin0`, `iMax0`, then `iMin = max(0, iMin0-3)` and
`iMax = min(t.size()-1, max(iMin+7, iMax0+3))`. -/
def windowSelect [LinearOrder α] (t : List α) (uMin uMax : α) : ℤ × ℤ :=
  let iMax0 := iMaxLoop t uMax (t.length - 1)
  let iMin0 := iMinLoop t uMin 0 (t.length - 1)
  let iMinW : ℤ := max 0 ((iMin0 : ℤ) - 3)
  let iMaxW : ℤ := min ((t.length : ℤ) - 1) (max (iMinW + 7) ((iMax0 : ℤ) + 3))
  (iMinW, iMaxW)

/-- The inverse-conformal-factor grid of `BMSTransformationOnSlice`
(Scri.cpp line 793), named so theorems can refer to it. -/
noncomputable def oneoverKgOf (v : ThreeVector) (n : ℕ) : Except GWError DataGrid :=
  InverseConformalFactorBoostedGrid v n n

/-- The candidate transformed retarded time on the plain grid
(Scri.cpp line 796, inner part): `(u - delta)/(1/K)`. -/
noncomputable def uprimeGridOf (E : ExtLib) (u : ℝ) (v : ThreeVector) (delta : Modes)
    (n : ℕ) : Except GWError DataGrid :=
  DataGrid.div (rsubG u (DataGrid.ofModes E delta n n)) (InverseConformalFactorGrid v n n)

/-- The `(edth u')/K` grid of `BMSTransformationOnSlice` (Scri.cpp lines
796-797): spectral-transform the u' grid, apply edth, evaluate on the
boosted grid, and multiply by the inverse conformal factor grid. -/
noncomputable def ethupokgOf (E : ExtLib) (u : ℝ) (v : ThreeVector) (delta : Modes)
    (n : ℕ) : Except GWError DataGrid := do
  let q2 ← uprimeGridOf E u v delta n
  let eg ← DataGrid.ofModesBoosted E ((Modes.ofGrid E q2 0).edth) v n n
  let K ← oneoverKgOf v n
  DataGrid.mul eg K

/-- `SliceModes::BMSTransformationOnSlice` (Scri.cpp lines 780-817): the
per-slice boost+supertranslation transformation, combining the boosted
member grids through the binomial cascade of conformal corrections. -/
noncomputable def SliceModes.BMSTransformationOnSlice (E : ExtLib) (S : SliceModes)
    (u : ℝ) (v : ThreeVector) (delta : Modes) : Except GWError SliceGrid := do
  let n := 2*S.EllMax + 1
  let oneoverK_g ← oneoverKgOf v n
  let oneoverKcubed_g := oneoverK_g.pow 3
  let ethethdelta_g ← DataGrid.ofModesBoosted E delta.edth.edth v n n
  let ethupok_g ← ethupokgOf E u v delta n
  let psi0_g ← DataGrid.ofModesBoosted E S.psi0 v n n
  let psi1_g ← DataGrid.ofModesBoosted E S.psi1 v n n
  let psi2_g ← DataGrid.ofModesBoosted E S.psi2 v n n
  let psi3_g ← DataGrid.ofModesBoosted E S.psi3 v n n
  let psi4_g ← DataGrid.ofModesBoosted E S.psi4 v n n
  let sigma_g ← DataGrid.ofModesBoosted E S.sigma v n n
  let sigmadot_g ← DataGrid.ofModesBoosted E S.sigmadot v n n
  let w4 ← DataGrid.mul oneoverKcubed_g psi4_g
  let a3 ← DataGrid.mul ethupok_g psi4_g
  let b3 ← DataGrid.sub psi3_g a3
  let w3 ← DataGrid.mul oneoverKcubed_g b3
  let a2 ← DataGrid.mul ethupok_g psi4_g
  let b2 ← DataGrid.sub (rmulG 2 psi3_g) a2
  let c2 ← DataGrid.mul ethupok_g b2
  let d2 ← DataGrid.sub psi2_g c2
  let w2 ← DataGrid.mul oneoverKcubed_g d2
  let a1 ← DataGrid.mul ethupok_g psi4_g
  let b1 ← DataGrid.sub (rmulG 3 psi3_g) a1
  let c1 ← DataGrid.mul ethupok_g b1
  let d1 ← DataGrid.sub (rmulG 3 psi2_g) c1
  let e1 ← DataGrid.mul ethupok_g d1
  let f1 ← DataGrid.sub psi1_g e1
  let w1 ← DataGrid.mul oneoverKcubed_g f1
  let a0 ← DataGrid.mul ethupok_g psi4_g
  let b0 ← DataGrid.sub (rmulG 4 psi3_g) a0
  let c0 ← DataGrid.mul ethupok_g b0
  let d0 ← DataGrid.sub (rmulG 6 psi2_g) c0
  let e0 ← DataGrid.mul ethupok_g d0
  let f0 ← DataGrid.sub (rmulG 4 psi1_g) e0
  let g0 ← DataGrid.mul ethupok_g f0
  let h0 ← DataGrid.sub psi0_g g0
  let w0 ← DataGrid.mul oneoverKcubed_g h0
  let s1 ← DataGrid.sub sigma_g ethethdelta_g
  let ws ← DataGrid.mul oneoverK_g s1
  let wsd ← DataGrid.mul sigmadot_g (oneoverK_g.pow 2)
  pure ⟨w0, w1, w2, w3, w4, ws, wsd⟩

/-- `GWFrames::SuperMomenta` (Scri.cpp lines 1032-1039): the time array
and the supermomentum of every slice. -/
structure SuperMomenta where
  t : List ℝ
  Psi : List Modes

/-- The default used for out-of-range element access on `Modes` lists. -/
def emptyModes : Modes := ⟨0, 0, []⟩

/-- The default used for out-of-range element access on `DataGrid`
lists. -/
def emptyGrid : DataGrid := ⟨0, 0, 0, []⟩

/-- `SuperMomenta::BMSTransform` (Scri.cpp lines 1042-1120): the value of
Psi on the u'=0 slice of the frame described by `(1/K, delta)`.
Follows the source step by step: derive `v` from `1/K`; build the grid
`u = delta`; find its real extrema; reject if `[uMin,uMax]` leaves the
stored time span; select the padded index window; per windowed slice
build the boosted grid of `(Psi[i] - edth^2 edthbar^2 delta)*(1/K)^3`;
cubic-spline each grid point (externally) to its required time; and
transform the interpolated grid back to spectral form. -/
noncomputable def SuperMomenta.BMSTransform (E : ExtLib) (SM : SuperMomenta)
    (OneOverK delta : Modes) : Except GWError Modes := do
  let n := 2*(SM.Psi.getD 0 emptyModes).ellMax + 1
  let v := vFromOneOverK OneOverK
  let u := DataGrid.ofModes E delta n n
  let uRe : ℕ → ℝ := fun i => (u.get i).re
  let uMax := (List.range (n*n)).foldl (fun a i => max a (uRe i)) (uRe 0)
  let uMin := (List.range (n*n)).foldl (fun a i => min a (uRe i)) (uRe 0)
  if uMin < SM.t.getD 0 0 ∨ SM.t.getD (SM.t.length - 1) 0 < uMax then .error .valueError
  else
    let w := windowSelect SM.t uMin uMax
    let Nslices := (w.2 - w.1 + 1).toNat
    let u_original := (List.range Nslices).map fun j => SM.t.getD ((w.1 + j).toNat) 0
    let tslices ← (List.range Nslices).mapM fun j => do
      let m1 ← Modes.sub (SM.Psi.getD ((w.1 + j).toNat) emptyModes) delta.edth2edthbar2
      let K3 ← Modes.pow3 E OneOverK
      let m2 ← Modes.mul E m1 K3
      DataGrid.ofModesBoosted E m2 v n n
    let nt2 := (tslices.getD 0 emptyGrid).n_theta
    let np2 := (tslices.getD 0 emptyGrid).n_phi
    let G : DataGrid := ⟨(DataGrid.ofSize (nt2*np2)).s, (DataGrid.ofSize (nt2*np2)).n_theta,
      (DataGrid.ofSize (nt2*np2)).n_phi,
      (List.range (nt2*np2)).map fun ig =>
        ⟨E.splineEval u_original (tslices.map fun ts => (ts.get ig).re) (uRe ig),
         E.splineEval u_original (tslices.map fun ts => (ts.get ig).im) (uRe ig)⟩⟩
    pure (Modes.ofGrid E G 0)

/-- `SuperMomenta::MoreschiIteration` (Scri.cpp lines 1123-1169): BMS
transform to the current estimate's slice, extract four-momentum and
mass, update `delta` at ell>=2 through the Poisson-type inversion, and
update `1/K` with `Psi[0]/M` at ell=0 and `-Psi[k]/(3M)` at the three
ell=1 entries (the signs reversed so the next application cancels the
boost).  The pair returned is the final state (OneOverK, delta) of the
two by-reference arguments. -/
noncomputable def SuperMomenta.MoreschiIteration (E : ExtLib) (SM : SuperMomenta)
    (OneOverK delta : Modes) : Except GWError (Modes × Modes) := do
  let Psi_i ← SM.BMSTransform E OneOverK delta
  let M := massOfPsi Psi_i
  let deltaderiv ← Modes.add Psi_i
    (Modes.ofGrid E (rdivG M ((DataGrid.ofModes E OneOverK 7 7).pow 3)) 0)
  let deltaNew : Modes := ⟨delta.s, delta.ellMax, delta.data.mapIdx fun i c =>
    if i < 4 then c
    else ((4 / (((ellOf i : ℝ) - 1)*(ellOf i : ℝ)*((ellOf i : ℝ)+1)*((ellOf i : ℝ)+2)) : ℝ) : ℂ)
           * deltaderiv.get i⟩
  let KNew : Modes := ⟨OneOverK.s, OneOverK.ellMax, OneOverK.data.mapIdx fun i c =>
    if i = 0 then Psi_i.get 0 / (M:ℂ)
    else if i = 1 then -Psi_i.get 1 / ((3*M : ℝ):ℂ)
    else if i = 2 then -Psi_i.get 2 / ((3*M : ℝ):ℂ)
    else if i = 3 then -Psi_i.get 3 / ((3*M : ℝ):ℂ)
    else c⟩
  pure (KNew, deltaNew)

/-! Helper lemmas about the list operations used by the embedding. -/

theorem getD_mapIdx {α β : Type} (f : ℕ → α → β) (l : List α) (i : ℕ) (d : β) (d2 : α)
    (h : i < l.length) : (l.mapIdx f).getD i d = f i (l.getD i d2) := by
  rw [List.getD_eq_getElem?_getD, List.getD_eq_getElem?_getD, List.getElem?_mapIdx,
    List.getElem?_eq_getElem h]
  rfl

theorem mapM_ok_of_forall {ε β α : Type} (f : α → Except ε β) (g : α → β) :
    ∀ l : List α, (∀ a ∈ l, f a = .ok (g a)) → l.mapM f = .ok (l.map g)
  | [], _ => rfl
  | a :: l, h => by
    rw [List.mapM_cons, h a (List.mem_cons_self a l),
      mapM_ok_of_forall f g l (fun b hb => h b (List.mem_cons_of_mem a hb))]
    rfl

theorem foldl_max_const {β : Type} [LinearOrder β] (g : ℕ → β) (c : β) :
    ∀ l : List ℕ, (∀ i ∈ l, g i = c) → l.foldl (fun a i => max a (g i)) c = c
  | [], _ => rfl
  | i :: l, h => by
    have hi : max c (g i) = c := by rw [h i (List.mem_cons_self i l)]; exact max_self c
    show (l.foldl (fun a j => max a (g j)) (max c (g i))) = c
    rw [hi]
    exact foldl_max_const g c l (fun j hj => h j (List.mem_cons_of_mem i hj))

theorem foldl_min_const {β : Type} [LinearOrder β] (g : ℕ → β) (c : β) :
    ∀ l : List ℕ, (∀ i ∈ l, g i = c) → l.foldl (fun a i => min a (g i)) c = c
  | [], _ => rfl
  | i :: l, h => by
    have hi : min c (g i) = c := by rw [h i (List.mem_cons_self i l)]; exact min_self c
    show (l.foldl (fun a j => min a (g j)) (min c (g i))) = c
    rw [hi]
    exact foldl_min_const g c l (fun j hj => h j (List.mem_cons_of_mem i hj))

/-! Concrete instances used by the counterexamples and witnesses. -/

/-- An external-collaborator record whose kernels return 0 everywhere. -/
def extZero : ExtLib :=
  ⟨fun _ _ _ _ _ _ => 0, fun _ _ _ _ _ _ => 0, fun _ _ _ _ => 0, fun _ _ _ => 0⟩

/-- A concrete 5x3 spin-0 grid of zeros. -/
def grid53 : DataGrid := ⟨0, 5, 3, List.replicate 15 0⟩

/-- A concrete 1x1 spin-0 grid. -/
def gridA : DataGrid := ⟨0, 1, 1, [1]⟩

/-- A concrete 1x1 spin-1 grid. -/
def gridB : DataGrid := ⟨1, 1, 1, [2]⟩

/-- A concrete spin-0 spectral field with a single ell=0 mode. -/
def modesA : Modes := ⟨0, 0, [0]⟩

/-- A concrete spin-1 spectral field with a single ell=0 mode. -/
def modesB : Modes := ⟨1, 0, [0]⟩

/-- A concrete spin-0 spectral field through ell=1. -/
def modesL1 : Modes := ⟨0, 1, [0, 0, 0, 0]⟩

/-- A strictly increasing list of ten integer times. -/
def t10 : List ℤ := [0, 1, 2, 3, 4, 5, 6, 7, 8, 9]

/-! Claim C3: the degree of a spectral field built from a grid. -/

/-- C3 (counterexample): on a 5x3 grid with requested minimum 0 the code
produces `ellMax = max(min(2,1),0) = 1`, not the claimed
`max(floor((n_theta-1)/2), floor((n_phi-1)/2), L) = 2`. -/
theorem C3_counterexample :
    (Modes.ofGrid extZero grid53 0).ellMax = 1 ∧
    max (max ((grid53.n_theta - 1)/2) ((grid53.n_phi - 1)/2)) 0 = 2 ∧ (1 : ℕ) ≠ 2 := by
  refine ⟨rfl, by decide, by decide⟩

/-- C3 (amended): constructing a `Modes` from a grid with requested
minimum degree `L` yields `ellMax = max(min(floor((n_theta-1)/2),
floor((n_phi-1)/2)), L)` — the minimum of the two per-direction floors,
raised to at least `L` — keeps the grid's spin, and allocates
`N_lm ellMax` coefficients. -/
theorem C3_theorem (E : ExtLib) (D : DataGrid) (L : ℕ) :
    (Modes.ofGrid E D L).ellMax = max (min ((D.n_theta - 1)/2) ((D.n_phi - 1)/2)) L ∧
    (Modes.ofGrid E D L).s = D.s ∧
    (Modes.ofGrid E D L).data.length = N_lm (Modes.ofGrid E D L).ellMax := by
  refine ⟨rfl, rfl, ?_⟩
  simp [Modes.ofGrid]

/-! Claim C5: spin bookkeeping of the pointwise algebra. -/

/-- C5 (counterexample): two 1x1 grids with different spins add without
any error, contradicting the claim that `A+B` raises on spin mismatch
(the spin check exists only for spectral `Modes` addition). -/
theorem C5_counterexample :
    gridA.s ≠ gridB.s ∧ (DataGrid.add gridA gridB).isOk = true := ⟨by decide, rfl⟩

/-- C5 (amended): on matching grids, multiplication adds the spins and
division subtracts them; grid addition and subtraction succeed whenever
the dimensions match, with NO spin check (the result keeps the left
operand's spin), while spectral (`Modes`) addition and subtraction do
raise `GWFrames_BadWaveformInformation` on spin mismatch. -/
theorem C5_theorem :
    (∀ B A : DataGrid, B.n_theta = A.n_theta → B.n_phi = A.n_phi →
      ∃ g, DataGrid.mul B A = .ok g ∧ g.s = B.s + A.s) ∧
    (∀ B A : DataGrid, B.n_theta = A.n_theta → B.n_phi = A.n_phi →
      ∃ g, DataGrid.div B A = .ok g ∧ g.s = B.s - A.s) ∧
    (∀ B A : DataGrid, B.n_theta = A.n_theta → B.n_phi = A.n_phi →
      ∃ g, DataGrid.add B A = .ok g ∧ g.s = B.s) ∧
    (∀ B A : DataGrid, B.n_theta = A.n_theta → B.n_phi = A.n_phi →
      ∃ g, DataGrid.sub B A = .ok g ∧ g.s = B.s) ∧
    (∀ X M : Modes, X.s ≠ M.s → Modes.add X M = .error .badWaveformInformation) ∧
    (∀ X M : Modes, X.s ≠ M.s → Modes.sub X M = .error .badWaveformInformation) := by
  refine ⟨?_, ?_, ?_, ?_, ?_, ?_⟩
  · intro B A h1 h2
    exact ⟨_, by rw [DataGrid.mul, if_neg (by simp [h1, h2])], rfl⟩
  · intro B A h1 h2
    exact ⟨_, by rw [DataGrid.div, if_neg (by simp [h1, h2])], rfl⟩
  · intro B A h1 h2
    refine ⟨⟨B.s, B.n_theta, B.n_phi, B.data.mapIdx fun i c => c + A.get i⟩, ?_, rfl⟩
    rw [DataGrid.add, if_neg (by simp [h1, h2])]
  · intro B A h1 h2
    refine ⟨⟨B.s, B.n_theta, B.n_phi, B.data.mapIdx fun i c => c - A.get i⟩, ?_, rfl⟩
    rw [DataGrid.sub, if_neg (by simp [h1, h2])]
  · intro X M h
    rw [Modes.add, if_pos h]
  · intro X M h
    rw [Modes.sub, if_pos h]

/-- C5 (witness): the amended theorem applied to concrete grids and
concrete spectral fields. -/
theorem C5_witness :
    (∃ g, DataGrid.mul gridA gridB = .ok g ∧ g.s = gridA.s + gridB.s) ∧
    Modes.add modesA modesB = .error .badWaveformInformation :=
  ⟨C5_theorem.1 gridA gridB rfl rfl, C5_theorem.2.2.2.2.1 modesA modesB (by decide)⟩

/-! Claim C7: the padded interpolation window. -/

theorem iMaxLoop_le {α : Type} [LinearOrder α] (t : List α) (u : α) :
    ∀ n, iMaxLoop t u n ≤ n
  | 0 => le_refl 0
  | n+1 => by
    rw [iMaxLoop]
    split
    · exact le_trans (iMaxLoop_le t u n) (Nat.le_succ n)
    · exact le_refl (n+1)

theorem iMinLoop_le {α : Type} [LinearOrder α] (t : List α) (u : α) :
    ∀ fuel i, iMinLoop t u i fuel ≤ i + fuel
  | 0, i => le_of_eq rfl
  | fuel+1, i => by
    rw [iMinLoop]
    split
    · exact le_trans (iMinLoop_le t u fuel (i+1)) (by omega)
    · omega

/-- C7 (counterexample): with ten stored times 0..9 and required range
[8, 8] (which passes the in-range check), the window is [5, 9]: the
clipping at the upper series bound leaves only 5 slices, contradicting
the claimed minimum of 7 slices. -/
theorem C7_counterexample :
    ¬((8:ℤ) < t10.getD 0 8 ∨ t10.getD (t10.length - 1) 8 < 8) ∧
    windowSelect t10 8 8 = (5, 9) ∧
    (windowSelect t10 8 8).2 - (windowSelect t10 8 8).1 + 1 < 7 := by decide

/-- C7 (amended): whenever the series is nonempty and the required range
passes the in-range check, the selected window `[iMin, iMax]` is clipped
to the series bounds (`0 <= iMin <= iMax <= NTimes-1`), its lower end is
the bracketing index minus a margin of 3 (clipped at 0), its upper end is
at least the bracketing index plus 3 and at least `iMin+7` (each clipped
at `NTimes-1`) — so the window reaches 8 slices when neither bound
clips, but CAN hold fewer than 7 slices against the series bounds. -/
theorem C7_theorem {α : Type} [LinearOrder α] (t : List α) (uMin uMax : α) (ht : t ≠ [])
    (_hpass : ¬(uMin < t.head ht ∨ t.getLast ht < uMax)) :
    0 ≤ (windowSelect t uMin uMax).1 ∧
    (windowSelect t uMin uMax).2 ≤ (t.length : ℤ) - 1 ∧
    (windowSelect t uMin uMax).1 ≤ (windowSelect t uMin uMax).2 ∧
    (windowSelect t uMin uMax).1 = max 0 ((iMinLoop t uMin 0 (t.length - 1) : ℤ) - 3) ∧
    min ((t.length : ℤ) - 1) ((iMaxLoop t uMax (t.length - 1) : ℤ) + 3)
      ≤ (windowSelect t uMin uMax).2 ∧
    min ((t.length : ℤ) - 1) ((windowSelect t uMin uMax).1 + 7)
      ≤ (windowSelect t uMin uMax).2 := by
  have hlen : 1 ≤ t.length := List.length_pos.mpr ht
  have h1 : iMinLoop t uMin 0 (t.length - 1) ≤ t.length - 1 := by
    have := iMinLoop_le t uMin (t.length - 1) 0
    omega
  have h2 : iMaxLoop t uMax (t.length - 1) ≤ t.length - 1 := iMaxLoop_le t uMax (t.length - 1)
  have hw : windowSelect t uMin uMax =
      (max 0 ((iMinLoop t uMin 0 (t.length - 1) : ℤ) - 3),
       min ((t.length : ℤ) - 1)
         (max (max 0 ((iMinLoop t uMin 0 (t.length - 1) : ℤ) - 3) + 7)
           ((iMaxLoop t uMax (t.length - 1) : ℤ) + 3))) := rfl
  rw [hw]
  refine ⟨le_max_left 0 _, ?_, ?_, rfl, ?_, ?_⟩ <;> simp only [] <;> omega

/-- C7 (witness): the amended window properties at the concrete series
`t10` with required range [8, 8]. -/
theorem C7_witness :
    t10 ≠ [] ∧
    (0 ≤ (windowSelect t10 8 8).1 ∧
     (windowSelect t10 8 8).2 ≤ (t10.length : ℤ) - 1 ∧
     (windowSelect t10 8 8).1 ≤ (windowSelect t10 8 8).2 ∧
     (windowSelect t10 8 8).1 = max 0 ((iMinLoop t10 8 0 (t10.length - 1) : ℤ) - 3) ∧
     min ((t10.length : ℤ) - 1) ((iMaxLoop t10 8 (t10.length - 1) : ℤ) + 3)
       ≤ (windowSelect t10 8 8).2 ∧
     min ((t10.length : ℤ) - 1) ((windowSelect t10 8 8).1 + 7)
       ≤ (windowSelect t10 8 8).2) :=
  ⟨by decide, C7_theorem t10 8 8 (by decide) (by decide)⟩

/-! Claim C10: degree bookkeeping of the spectral product. -/

/-- C10 (counterexample): the product of two ell<=1 spectral fields has
`ellMax = 2` (the sum of the degrees), not `max(1,1) = 1` as claimed;
nothing above the larger input degree is discarded. -/
theorem C10_counterexample :
    (Modes.mul extZero modesL1 modesL1).map Modes.ellMax = .ok 2 ∧
    max modesL1.ellMax modesL1.ellMax = 1 ∧ (2 : ℕ) ≠ 1 :=
  ⟨rfl, rfl, by decide⟩

/-- C10 (amended): for all spectral fields, the product carries spin
`A.s + B.s` and `ellMax = A.ellMax + B.ellMax`: the pointwise product is
computed on a `2(A.ellMax+B.ellMax)+1` grid and the backward transform's
requested minimum `max(A.ellMax, B.ellMax)` is dominated by the
grid-derived degree, so the full mode-mixing range is kept (and likewise
for division, with spin `A.s - B.s`). -/
theorem ofModes_n_theta (E : ExtLib) (Y : Modes) (nt np : ℕ) :
    (DataGrid.ofModes E Y nt np).n_theta = max nt (2*Y.ellMax+1) := rfl

theorem ofModes_n_phi (E : ExtLib) (Y : Modes) (nt np : ℕ) :
    (DataGrid.ofModes E Y nt np).n_phi = max np (2*Y.ellMax+1) := rfl

theorem C10_theorem (E : ExtLib) (X M : Modes) :
    (∃ P, Modes.mul E X M = .ok P ∧ P.s = X.s + M.s ∧ P.ellMax = X.ellMax + M.ellMax) ∧
    (∃ Q, Modes.div E X M = .ok Q ∧ Q.s = X.s - M.s ∧ Q.ellMax = X.ellMax + M.ellMax) := by
  have hgX : DataGrid.ofModes E X (2*(X.ellMax + M.ellMax)+1) (2*(X.ellMax + M.ellMax)+1)
      = ⟨X.s, 2*(X.ellMax + M.ellMax)+1, 2*(X.ellMax + M.ellMax)+1,
          (List.range ((2*(X.ellMax + M.ellMax)+1)*(2*(X.ellMax + M.ellMax)+1))).map
            (E.salm2map X.s (2*(X.ellMax + M.ellMax)+1) (2*(X.ellMax + M.ellMax)+1)
              X.ellMax X.data)⟩ := by
    have h : max (2*(X.ellMax + M.ellMax)+1) (2*X.ellMax+1) = 2*(X.ellMax + M.ellMax)+1 := by
      omega
    simp only [DataGrid.ofModes, h]
  have hgM : DataGrid.ofModes E M (2*(X.ellMax + M.ellMax)+1) (2*(X.ellMax + M.ellMax)+1)
      = ⟨M.s, 2*(X.ellMax + M.ellMax)+1, 2*(X.ellMax + M.ellMax)+1,
          (List.range ((2*(X.ellMax + M.ellMax)+1)*(2*(X.ellMax + M.ellMax)+1))).map
            (E.salm2map M.s (2*(X.ellMax + M.ellMax)+1) (2*(X.ellMax + M.ellMax)+1)
              M.ellMax M.data)⟩ := by
    have h : max (2*(X.ellMax + M.ellMax)+1) (2*M.ellMax+1) = 2*(X.ellMax + M.ellMax)+1 := by
      omega
    simp only [DataGrid.ofModes, h]
  have hell : ∀ C : DataGrid, C.n_theta = 2*(X.ellMax + M.ellMax)+1 →
      C.n_phi = 2*(X.ellMax + M.ellMax)+1 →
      (Modes.ofGrid E C (max X.ellMax M.ellMax)).ellMax = X.ellMax + M.ellMax := by
    intro C h1 h2
    show max (min ((C.n_theta - 1)/2) ((C.n_phi - 1)/2)) (max X.ellMax M.ellMax)
      = X.ellMax + M.ellMax
    rw [h1, h2]
    omega
  constructor
  · rw [Modes.mul, hgX, hgM, DataGrid.mul, if_neg (by simp)]
    exact ⟨_, rfl, rfl, hell _ rfl rfl⟩
  · rw [Modes.div, hgX, hgM, DataGrid.div, if_neg (by simp)]
    exact ⟨_, rfl, rfl, hell _ rfl rfl⟩

/-! Claim C6: the degenerate cases of the boost rotor. -/

/-- The zero three-vector. -/
def zeroVec : ThreeVector := ⟨0, 0, 0⟩

/-- A boost velocity of magnitude 3/5 along x. -/
noncomputable def v35 : ThreeVector := ⟨3/5, 0, 0⟩

theorem absVec_zeroVec : absVec zeroVec = 0 := by
  simp [absVec, zeroVec]

theorem boostTrivial_zeroVec : boostTrivial zeroVec := by
  left
  rw [absVec_zeroVec]
  norm_num

theorem absVec_v35 : absVec v35 = 3/5 := by
  have h : (v35.x*v35.x + v35.y*v35.y + v35.z*v35.z : ℝ) = (3/5)^2 := by
    norm_num [v35]
  rw [absVec, h, Real.sqrt_sq (by norm_num : (0:ℝ) ≤ 3/5)]

theorem exp_rapidity_v35 : Real.exp (Rapidity v35) = 2 := by
  have h1 : (1.0 : ℝ) - absVec v35 * absVec v35 = (4/5)^2 := by
    rw [absVec_v35]; norm_num
  have h3 : ((5/4 : ℝ))^2 - 1 = (3/4)^2 := by norm_num
  rw [Rapidity, h1, Real.sqrt_sq (by norm_num : (0:ℝ) ≤ 4/5)]
  rw [show (1.0 : ℝ)/(4/5) = 5/4 by norm_num]
  rw [acosh, h3, Real.sqrt_sq (by norm_num : (0:ℝ) ≤ 3/4)]
  rw [show (5/4 + 3/4 : ℝ) = 2 by norm_num]
  exact Real.exp_log (by norm_num)

theorem not_boostTrivial_v35 : ¬ boostTrivial v35 := by
  intro h
  rcases h with h | h
  · rw [absVec_v35] at h
    norm_num at h
  · rw [exp_rapidity_v35] at h
    norm_num at h

/-- C6 (counterexample): for the zero velocity (|v| < 1e-14) and the zero
direction `n`, `Boost` returns the identity rotor instead of raising the
claimed value error: the small-boost early return comes first. -/
theorem C6_counterexample :
    Boost zeroVec zeroVec = .ok ⟨1, 0, 0, 0⟩ ∧
    Boost zeroVec zeroVec ≠ .error .valueError := by
  have h : Boost zeroVec zeroVec = .ok ⟨1, 0, 0, 0⟩ := by
    rw [Boost, if_pos boostTrivial_zeroVec]
  exact ⟨h, by rw [h]; exact fun hh => Except.noConfusion hh⟩

/-- C6 (amended): whenever the small-boost condition holds (in particular
whenever `|v| < 1e-14`), `Boost` returns the identity rotor for EVERY
direction `n`, including `n = 0`; the zero-vector value error is raised
only when the small-boost early return is not taken. -/
theorem C6_theorem :
    (∀ v n : ThreeVector, boostTrivial v → Boost v n = .ok ⟨1, 0, 0, 0⟩) ∧
    (∀ v : ThreeVector, ¬ boostTrivial v → Boost v zeroVec = .error .valueError) := by
  constructor
  · intro v n h
    rw [Boost, if_pos h]
  · intro v h
    rw [Boost, if_neg h]
    simp [absVec_zeroVec]

/-- C6 (witness): the amended theorem at the zero velocity (identity for
any `n`) and at `v = (3/5,0,0)` with `n = 0` (value error). -/
theorem C6_witness :
    boostTrivial zeroVec ∧ Boost zeroVec ⟨1, 1, 1⟩ = .ok ⟨1, 0, 0, 0⟩ ∧
    ¬ boostTrivial v35 ∧ Boost v35 zeroVec = .error .valueError :=
  ⟨boostTrivial_zeroVec, C6_theorem.1 zeroVec ⟨1, 1, 1⟩ boostTrivial_zeroVec,
   not_boostTrivial_v35, C6_theorem.2 v35 not_boostTrivial_v35⟩

/-! Claim C9: the edth / edthbar factors. -/

/-- The flat position at which the degree-`k` block starts when the block
walk begins at degree `ell`: `sum over i < k of (2(ell+i)+1)`. -/
def blockOffset (ell k : ℕ) : ℕ := 2*ell*k + k*k

theorem scaleBlocks_getElem (factor : ℕ → ℝ) :
    ∀ (fuel ell k j : ℕ) (d : List ℂ), k < fuel → j < 2*(ell+k)+1 →
      blockOffset ell k + j < d.length →
      (scaleBlocks factor ell fuel d)[blockOffset ell k + j]?
        = Option.map (fun c => c * (factor (ell+k) : ℂ)) d[blockOffset ell k + j]? := by
  intro fuel
  induction fuel with
  | zero =>
    intro ell k j d hk
    exact absurd hk (Nat.not_lt_zero k)
  | succ f ih =>
    intro ell k j d hk hj hlen
    rw [scaleBlocks]
    cases k with
    | zero =>
      have h0 : blockOffset ell 0 = 0 := by simp [blockOffset]
      rw [h0, Nat.zero_add] at hlen ⊢
      have hj1 : j < 2*ell+1 := by omega
      rw [List.getElem?_append]
      have hlt : j < ((d.take (2*ell+1)).map fun c => c * (factor ell : ℂ)).length := by
        simp only [List.length_map, List.length_take]
        omega
      rw [if_pos hlt, List.getElem?_map, List.getElem?_take, if_pos hj1, Nat.add_zero]
    | succ k =>
      have he : blockOffset ell (k+1) = (2*ell+1) + blockOffset (ell+1) k := by
        simp only [blockOffset]
        ring
      rw [he] at hlen ⊢
      have hl1 : ((d.take (2*ell+1)).map fun c => c * (factor ell : ℂ)).length
          = min (2*ell+1) d.length := by
        simp only [List.length_map, List.length_take]
      rw [List.getElem?_append, hl1, if_neg (by omega)]
      have hsub : (2*ell+1) + blockOffset (ell+1) k + j - min (2*ell+1) d.length
          = blockOffset (ell+1) k + j := by omega
      rw [hsub]
      have hdl : blockOffset (ell+1) k + j < (d.drop (2*ell+1)).length := by
        simp only [List.length_drop]
        omega
      rw [Nat.add_assoc] at he ⊢
      rw [ih (ell+1) k j (d.drop (2*ell+1)) (by omega) (by omega) hdl,
        List.getElem?_drop]
      have harg : ell + 1 + k = ell + (k+1) := by omega
      rw [harg]

/-- A concrete spin-0 spectral field through ell=1 with unit data. -/
def modesOnes : Modes := ⟨0, 1, [1, 1, 1, 1]⟩

/-- C9 (confirmed): for any spectral field with well-formed data and any
mode (ell, m) with ell at most ellMax, `edth` multiplies the coefficient
by `sqrt((ell-s)(ell+s+1)/2)` when `ell >= |s+1|` and by 0 otherwise and
raises the spin to `s+1`; `edthbar` multiplies it by
`-sqrt((ell+s)(ell-s+1)/2)` when `ell >= |s-1|` and by 0 otherwise and
lowers the spin to `s-1`. -/
theorem C9_theorem (A : Modes) (ell : ℕ) (m : ℤ)
    (hlen : A.data.length = N_lm A.ellMax) (hell : ell ≤ A.ellMax)
    (hm1 : -(ell:ℤ) ≤ m) (hm2 : m ≤ ell) :
    A.edth.s = A.s + 1 ∧ A.edthbar.s = A.s - 1 ∧
    A.edth.ellMax = A.ellMax ∧ A.edthbar.ellMax = A.ellMax ∧
    A.edth.get (lmIdx ell m).toNat
      = A.get (lmIdx ell m).toNat *
        ((if (ell:ℤ) < |A.s+1| then 0
          else Real.sqrt (((ell:ℝ) - (A.s:ℝ)) * ((ell:ℝ) + (A.s:ℝ) + 1) / 2) : ℝ) : ℂ) ∧
    A.edthbar.get (lmIdx ell m).toNat
      = A.get (lmIdx ell m).toNat *
        ((if (ell:ℤ) < |A.s-1| then 0
          else -Real.sqrt (((ell:ℝ) + (A.s:ℝ)) * ((ell:ℝ) - (A.s:ℝ) + 1) / 2) : ℝ) : ℂ) := by
  have hpos : (lmIdx ell m).toNat = blockOffset 0 ell + (m + ell).toNat := by
    simp only [lmIdx, blockOffset]
    omega
  have hj : (m + ell).toNat < 2*(0+ell)+1 := by omega
  have hsq : (ell+1)*(ell+1) = ell*ell + 2*ell + 1 := by ring
  have hmono : (ell+1)*(ell+1) ≤ (A.ellMax+1)*(A.ellMax+1) :=
    Nat.mul_le_mul (Nat.succ_le_succ hell) (Nat.succ_le_succ hell)
  have hlt : blockOffset 0 ell + (m + ell).toNat < A.data.length := by
    rw [hlen]
    simp only [blockOffset, N_lm] at *
    omega
  have key : ∀ factor : ℕ → ℝ,
      (scaleBlocks factor 0 (A.ellMax+1) A.data).getD (lmIdx ell m).toNat 0
        = A.data.getD (lmIdx ell m).toNat 0 * (factor ell : ℂ) := by
    intro factor
    rw [hpos, List.getD_eq_getElem?_getD, List.getD_eq_getElem?_getD,
      scaleBlocks_getElem factor (A.ellMax+1) 0 ell ((m + ell).toNat) A.data
        (by omega) hj hlt,
      List.getElem?_eq_getElem hlt]
    simp only [Nat.zero_add]
    rfl
  exact ⟨rfl, rfl, rfl, rfl, key (edthFactor A.s), key (edthbarFactor A.s)⟩

/-- C9 (witness): the factor law at the concrete unit field, degree 1,
order 0. -/
theorem C9_witness :
    modesOnes.data.length = N_lm modesOnes.ellMax ∧ (1 : ℕ) ≤ modesOnes.ellMax ∧
    (modesOnes.edth.s = modesOnes.s + 1 ∧ modesOnes.edthbar.s = modesOnes.s - 1 ∧
     modesOnes.edth.ellMax = modesOnes.ellMax ∧ modesOnes.edthbar.ellMax = modesOnes.ellMax ∧
     modesOnes.edth.get (lmIdx 1 0).toNat
       = modesOnes.get (lmIdx 1 0).toNat *
         ((if ((1:ℕ):ℤ) < |modesOnes.s+1| then 0
           else Real.sqrt ((((1:ℕ):ℝ) - (modesOnes.s:ℝ)) * (((1:ℕ):ℝ) + (modesOnes.s:ℝ) + 1) / 2) : ℝ) : ℂ) ∧
     modesOnes.edthbar.get (lmIdx 1 0).toNat
       = modesOnes.get (lmIdx 1 0).toNat *
         ((if ((1:ℕ):ℤ) < |modesOnes.s-1| then 0
           else -Real.sqrt ((((1:ℕ):ℝ) + (modesOnes.s:ℝ)) * (((1:ℕ):ℝ) - (modesOnes.s:ℝ) + 1) / 2) : ℝ) : ℂ)) :=
  ⟨rfl, by decide,
   C9_theorem modesOnes 1 0 rfl (by decide) (by decide) (by decide)⟩

/-! Claims C2 and C4: the supermomentum formula and the per-slice
Moreschi stub. -/

/-- The supermomentum as the claim words it: the middle term is the shear
times the conjugate of edth-bar applied to the shear's time derivative
(`sigma * bar(edthbar(sigmadot))`), for comparison with the source's
`SliceModes::SuperMomentum`. -/
noncomputable def superMomentumFromSpec (E : ExtLib) (S : SliceModes) :
    Except GWError Modes := do
  let prod ← Modes.mul E S.sigma S.sigmadot.edthbar.bar
  let a ← Modes.add S.psi2 prod
  Modes.add a S.sigma.bar.edth.edth

/-- The supermomentum as amended: the middle term is the shear times the
plain conjugate of the shear's time derivative (no edth-bar). -/
noncomputable def superMomentumAmended (E : ExtLib) (S : SliceModes) :
    Except GWError Modes := do
  let prod ← Modes.mul E S.sigma S.sigmadot.bar
  let a ← Modes.add S.psi2 prod
  Modes.add a S.sigma.bar.edth.edth

/-- A concrete ellMax=0 slice with the spins fixed by the `SliceOfScri`
constructor and `psi2 = sqrt(4 pi)` in its single mode. -/
noncomputable def slice4 : SliceModes :=
  ⟨⟨2, 0, [0]⟩, ⟨1, 0, [0]⟩, ⟨0, 0, [(sqrt4pi : ℂ)]⟩, ⟨-1, 0, [0]⟩, ⟨-2, 0, [0]⟩,
   ⟨2, 0, [0]⟩, ⟨2, 0, [0]⟩⟩

/-- C2 (counterexample): on the concrete slice the claimed formula is not
even well-typed for the code's algebra: `sigma * bar(edthbar(sigmadot))`
has spin 2 + (-(2-1)) = 1, so adding it to the spin-0 `psi2` raises the
spin-mismatch error, while the source's `SuperMomentum` succeeds. -/
theorem C2_counterexample :
    superMomentumFromSpec extZero slice4 = .error .badWaveformInformation ∧
    (SliceModes.SuperMomentum extZero slice4).isOk = true := ⟨rfl, rfl⟩

/-- C2 (amended): for every slice, `SuperMomentum()` returns
`psi2 + sigma*bar(sigmadot) + edth(edth(bar(sigma)))` — the middle term
multiplies the shear by the plain conjugate of the shear's time
derivative, with no edth-bar applied. -/
theorem C2_theorem (E : ExtLib) (S : SliceModes) :
    SliceModes.SuperMomentum E S = superMomentumAmended E S := rfl

/-- The value of the supermomentum on `slice4`. -/
noncomputable def psiSlice4 : Modes := ⟨0, 0, [(sqrt4pi : ℂ)]⟩

theorem sqrt4pi_ne_zero : sqrt4pi ≠ 0 := by
  rw [sqrt4pi]
  exact Real.sqrt_ne_zero'.mpr (by positivity)

theorem superMomentum_slice4 : SliceModes.SuperMomentum extZero slice4 = .ok psiSlice4 := by
  simp only [SliceModes.SuperMomentum, slice4, Modes.mul, Modes.bar, Modes.edth, Modes.add,
    Modes.ofGrid, DataGrid.ofModes, DataGrid.mul, extZero, psiSlice4, scaleBlocks]
  norm_num [Modes.get, N_lm, List.range_succ]
  norm_num [bind, Except.bind, List.mapIdx_cons, Modes.get]

theorem massOfPsi_slice4 : massOfPsi psiSlice4 = 1 := by
  have h : fourMomentumOfPsi psiSlice4 = (1, 0, 0, 0) := by
    simp only [fourMomentumOfPsi, psiSlice4, Modes.get]
    norm_num [Complex.ofReal_re, div_self sqrt4pi_ne_zero]
  rw [massOfPsi, h]
  norm_num

/-- C4 (counterexample): on the concrete slice, the per-slice Moreschi
stub raises `GWFrames_NotYetImplemented` but its by-reference output
`OneOverK_ip1` has already been overwritten: entry 0 becomes
`sqrt(4 pi)` while the argument held 0 (only `delta_ip1` is unchanged). -/
theorem C4_counterexample :
    (SliceModes.MoreschiIteration extZero slice4 modesL1 modesA).1 = .notYetImplemented ∧
    (SliceModes.MoreschiIteration extZero slice4 modesL1 modesA).2.2 = modesA ∧
    (SliceModes.MoreschiIteration extZero slice4 modesL1 modesA).2.1.get 0 = (sqrt4pi : ℂ) ∧
    modesL1.get 0 = 0 ∧ ((sqrt4pi : ℝ) : ℂ) ≠ 0 := by
  have key : SliceModes.MoreschiIteration extZero slice4 modesL1 modesA
      = (.notYetImplemented,
         ⟨0, 1, [psiSlice4.get 0 / (massOfPsi psiSlice4 : ℂ),
                 psiSlice4.get 1 / (massOfPsi psiSlice4 : ℂ),
                 psiSlice4.get 2 / (massOfPsi psiSlice4 : ℂ),
                 psiSlice4.get 3 / (massOfPsi psiSlice4 : ℂ)]⟩,
         modesA) := by
    rw [SliceModes.MoreschiIteration, superMomentum_slice4]
  rw [key]
  refine ⟨rfl, rfl, ?_, rfl, ?_⟩
  · rw [massOfPsi_slice4]
    simp [Modes.get, psiSlice4]
  · exact_mod_cast Complex.ofReal_ne_zero.mpr sqrt4pi_ne_zero

/-- C4 (amended): whenever the supermomentum of the slice is computable,
the stub returns `GWFrames_NotYetImplemented` with `delta_ip1` unchanged
but with `OneOverK_ip1` REPLACED by the fresh ell<=1 field holding
`Psi[0..3]/M` — a partial result escapes through the by-reference
argument despite the raised error. -/
theorem C4_theorem (E : ExtLib) (S : SliceModes) (Kin din Psi : Modes)
    (h : S.SuperMomentum E = .ok Psi) :
    S.MoreschiIteration E Kin din
      = (.notYetImplemented,
         ⟨0, 1, [Psi.get 0 / (massOfPsi Psi : ℂ), Psi.get 1 / (massOfPsi Psi : ℂ),
                 Psi.get 2 / (massOfPsi Psi : ℂ), Psi.get 3 / (massOfPsi Psi : ℂ)]⟩,
         din) := by
  rw [SliceModes.MoreschiIteration, h]

/-- C4 (witness): the amended theorem at the concrete slice. -/
theorem C4_witness :
    SliceModes.SuperMomentum extZero slice4 = .ok psiSlice4 ∧
    SliceModes.MoreschiIteration extZero slice4 modesL1 modesA
      = (.notYetImplemented,
         ⟨0, 1, [psiSlice4.get 0 / (massOfPsi psiSlice4 : ℂ),
                 psiSlice4.get 1 / (massOfPsi psiSlice4 : ℂ),
                 psiSlice4.get 2 / (massOfPsi psiSlice4 : ℂ),
                 psiSlice4.get 3 / (massOfPsi psiSlice4 : ℂ)]⟩,
         modesA) :=
  ⟨superMomentum_slice4,
   C4_theorem extZero slice4 modesL1 modesA psiSlice4 superMomentum_slice4⟩

/-! Claim C8: infrastructure.  The boosted-grid constructors never fail:
every grid direction `(Rp zHat Rp*)` is a unit vector, so `Boost` never
reaches its zero-vector error there. -/

theorem normSq_rotorFromAngles (vartheta varphi : ℝ) :
    (rotorFromAngles vartheta varphi).normSq = 1 := by
  have h : (rotorFromAngles vartheta varphi).normSq
      = (Real.cos (varphi/2)^2 + Real.sin (varphi/2)^2)
        * (Real.cos (vartheta/2)^2 + Real.sin (vartheta/2)^2) := by
    simp only [rotorFromAngles, Quat.mul, Quat.normSq]
    ring
  rw [h, Real.cos_sq_add_sin_sq, Real.cos_sq_add_sin_sq, mul_one]

theorem absVec_vec_RzR (R : Quat) (h : R.normSq = 1) :
    absVec ((R.mul zHat |>.mul R.conjugate).vec) = 1 := by
  have hv : ((R.mul zHat |>.mul R.conjugate).vec).x * ((R.mul zHat |>.mul R.conjugate).vec).x
      + ((R.mul zHat |>.mul R.conjugate).vec).y * ((R.mul zHat |>.mul R.conjugate).vec).y
      + ((R.mul zHat |>.mul R.conjugate).vec).z * ((R.mul zHat |>.mul R.conjugate).vec).z
      = R.normSq * R.normSq := by
    simp only [Quat.mul, Quat.conjugate, Quat.vec, zHat, Quat.normSq]
    ring
  rw [absVec, hv, h, mul_one, Real.sqrt_one]

theorem boost_ok (v n : ThreeVector) (hn : absVec n ≠ 0) : ∃ q, Boost v n = .ok q := by
  rw [Boost]
  split
  · exact ⟨_, rfl⟩
  · simp only [if_neg hn]
    split
    · exact ⟨_, rfl⟩
    · exact ⟨_, rfl⟩

/-- The value of a successful `Boost` (identity on the error branch, so
that `Boost v n = .ok (boostVal v n)` whenever `Boost` succeeds). -/
noncomputable def boostVal (v n : ThreeVector) : Quat :=
  match Boost v n with
  | .ok q => q
  | .error _ => ⟨1, 0, 0, 0⟩

theorem boost_eq_boostVal (v n : ThreeVector) (h : ∃ q, Boost v n = .ok q) :
    Boost v n = .ok (boostVal v n) := by
  obtain ⟨q, hq⟩ := h
  unfold boostVal
  rw [hq]

/-- The rotor taking the pole to flat grid point `ig` of an `nt x np`
equiangular grid (the `Rp` of the grid constructors). -/
noncomputable def poleRotor (nt np ig : ℕ) : Quat :=
  rotorFromAngles ((Real.pi / ((nt : ℝ) - 1)) * (iTheta np ig : ℝ))
    ((2*Real.pi / (np : ℝ)) * (iPhi np ig : ℝ))

/-- The direction of grid point `ig` (the boosted `n` fed to `Boost`). -/
noncomputable def gridDir (nt np ig : ℕ) : ThreeVector :=
  ((poleRotor nt np ig).mul zHat |>.mul (poleRotor nt np ig).conjugate).vec

theorem absVec_gridDir (nt np ig : ℕ) : absVec (gridDir nt np ig) = 1 :=
  absVec_vec_RzR _ (normSq_rotorFromAngles _ _)

theorem boost_gridDir_ok (v : ThreeVector) (nt np ig : ℕ) :
    Boost v.neg (gridDir nt np ig) = .ok (boostVal v.neg (gridDir nt np ig)) :=
  boost_eq_boostVal _ _ (boost_ok _ _ (by rw [absVec_gridDir]; exact one_ne_zero))

/-- The value of a boosted `Modes` grid at flat point `ig`. -/
noncomputable def boostedPointVal (E : ExtLib) (M : Modes) (v : ThreeVector)
    (nt np ig : ℕ) : ℂ :=
  M.evaluateAtPoint E ((boostVal v.neg (gridDir nt np ig)).mul (poleRotor nt np ig))

/-- The value of a boosted functor grid at flat point `ig`. -/
noncomputable def functorPointVal (f : Quat → ℝ) (v : ThreeVector) (nt np ig : ℕ) : ℂ :=
  ((f ((boostVal v.neg (gridDir nt np ig)).mul (poleRotor nt np ig)) : ℝ) : ℂ)

theorem ofModesBoosted_eq (E : ExtLib) (M : Modes) (v : ThreeVector) (Nt Np : ℕ) :
    DataGrid.ofModesBoosted E M v Nt Np
      = .ok ⟨M.s, max Nt (2*M.ellMax+1), max Np (2*M.ellMax+1),
          (List.range ((max Nt (2*M.ellMax+1)) * (max Np (2*M.ellMax+1)))).map
            (boostedPointVal E M v (max Nt (2*M.ellMax+1)) (max Np (2*M.ellMax+1)))⟩ := by
  rw [DataGrid.ofModesBoosted]
  rw [mapM_ok_of_forall _ (boostedPointVal E M v (max Nt (2*M.ellMax+1)) (max Np (2*M.ellMax+1)))]
  · rfl
  · intro ig _
    show (do
      let Rb ← Boost v.neg (gridDir (max Nt (2*M.ellMax+1)) (max Np (2*M.ellMax+1)) ig)
      pure (M.evaluateAtPoint E
        (Rb.mul (poleRotor (max Nt (2*M.ellMax+1)) (max Np (2*M.ellMax+1)) ig))) :
        Except GWError ℂ)
      = .ok (boostedPointVal E M v (max Nt (2*M.ellMax+1)) (max Np (2*M.ellMax+1)) ig)
    rw [boost_gridDir_ok v _ _ ig]
    rfl

theorem ofFunctor_eq (Spin : ℤ) (Nt Np : ℕ) (v : ThreeVector) (f : Quat → ℝ) :
    DataGrid.ofFunctor Spin Nt Np v f
      = .ok ⟨Spin, Nt, Np, (List.range (Nt*Np)).map (functorPointVal f v Nt Np)⟩ := by
  rw [DataGrid.ofFunctor]
  rw [mapM_ok_of_forall _ (functorPointVal f v Nt Np)]
  · rfl
  · intro ig _
    show (do
      let Rb ← Boost v.neg (gridDir Nt Np ig)
      pure ((f (Rb.mul (poleRotor Nt Np ig)) : ℝ) : ℂ) : Except GWError ℂ)
      = .ok (functorPointVal f v Nt Np ig)
    rw [boost_gridDir_ok v _ _ ig]
    rfl

/-- A grid has dimensions `n x n` with a fully populated data vector. -/
def gridFits (g : DataGrid) (n : ℕ) : Prop :=
  g.n_theta = n ∧ g.n_phi = n ∧ g.data.length = n*n

theorem getD_map {α β : Type} (f : α → β) (l : List α) (i : ℕ) (d : β) (d2 : α)
    (h : i < l.length) : (l.map f).getD i d = f (l.getD i d2) := by
  rw [List.getD_eq_getElem?_getD, List.getD_eq_getElem?_getD, List.getElem?_map,
    List.getElem?_eq_getElem h]
  rfl

theorem mul_fits {B A : DataGrid} {n : ℕ} (hB : gridFits B n) (hA : gridFits A n) :
    ∃ C, DataGrid.mul B A = .ok C ∧ gridFits C n ∧ C.s = B.s + A.s ∧
      ∀ i, i < n*n → C.get i = B.get i * A.get i := by
  refine ⟨⟨B.s + A.s, B.n_theta, B.n_phi, B.data.mapIdx fun i c => c * A.get i⟩, ?_, ?_, rfl, ?_⟩
  · rw [DataGrid.mul, if_neg (by simp [hB.1, hA.1, hB.2.1, hA.2.1])]
  · exact ⟨hB.1, hB.2.1, by simp [hB.2.2]⟩
  · intro i hi
    show (B.data.mapIdx fun i c => c * A.get i).getD i 0 = _
    rw [getD_mapIdx _ _ i 0 0 (by rw [hB.2.2]; exact hi)]
    rfl

theorem div_fits {B A : DataGrid} {n : ℕ} (hB : gridFits B n) (hA : gridFits A n) :
    ∃ C, DataGrid.div B A = .ok C ∧ gridFits C n ∧ C.s = B.s - A.s ∧
      ∀ i, i < n*n → C.get i = B.get i / A.get i := by
  refine ⟨⟨B.s - A.s, B.n_theta, B.n_phi, B.data.mapIdx fun i c => c / A.get i⟩, ?_, ?_, rfl, ?_⟩
  · rw [DataGrid.div, if_neg (by simp [hB.1, hA.1, hB.2.1, hA.2.1])]
  · exact ⟨hB.1, hB.2.1, by simp [hB.2.2]⟩
  · intro i hi
    show (B.data.mapIdx fun i c => c / A.get i).getD i 0 = _
    rw [getD_mapIdx _ _ i 0 0 (by rw [hB.2.2]; exact hi)]
    rfl

theorem sub_fits {B A : DataGrid} {n : ℕ} (hB : gridFits B n) (hA : gridFits A n) :
    ∃ C, DataGrid.sub B A = .ok C ∧ gridFits C n ∧ C.s = B.s ∧
      ∀ i, i < n*n → C.get i = B.get i - A.get i := by
  refine ⟨⟨B.s, B.n_theta, B.n_phi, B.data.mapIdx fun i c => c - A.get i⟩, ?_, ?_, rfl, ?_⟩
  · rw [DataGrid.sub, if_neg (by simp [hB.1, hA.1, hB.2.1, hA.2.1])]
  · exact ⟨hB.1, hB.2.1, by simp [hB.2.2]⟩
  · intro i hi
    show (B.data.mapIdx fun i c => c - A.get i).getD i 0 = _
    rw [getD_mapIdx _ _ i 0 0 (by rw [hB.2.2]; exact hi)]
    rfl

theorem pow_fits {g : DataGrid} {n : ℕ} (h : gridFits g n) (p : ℕ) :
    gridFits (g.pow p) n ∧ (g.pow p).s = g.s ∧
      ∀ i, i < n*n → (g.pow p).get i = g.get i ^ p := by
  refine ⟨⟨h.1, h.2.1, by simp [DataGrid.pow, h.2.2]⟩, rfl, ?_⟩
  intro i hi
  show (g.data.map fun c => c ^ p).getD i 0 = _
  rw [getD_map _ _ i 0 0 (by rw [h.2.2]; exact hi)]
  rfl

theorem rmulG_fits {g : DataGrid} {n : ℕ} (h : gridFits g n) (a : ℝ) :
    gridFits (rmulG a g) n ∧ (rmulG a g).s = g.s ∧
      ∀ i, i < n*n → (rmulG a g).get i = g.get i * (a : ℂ) := by
  refine ⟨⟨h.1, h.2.1, by simp [rmulG, h.2.2]⟩, rfl, ?_⟩
  intro i hi
  show (g.data.map fun c => c * (a:ℂ)).getD i 0 = _
  rw [getD_map _ _ i 0 0 (by rw [h.2.2]; exact hi)]
  rfl

theorem rsubG_fits {g : DataGrid} {n : ℕ} (h : gridFits g n) (a : ℝ) :
    gridFits (rsubG a g) n ∧ (rsubG a g).s = g.s ∧
      ∀ i, i < n*n → (rsubG a g).get i = (a : ℂ) - g.get i := by
  refine ⟨⟨h.1, h.2.1, by simp [rsubG, h.2.2]⟩, rfl, ?_⟩
  intro i hi
  show (g.data.map fun c => (a:ℂ) - c).getD i 0 = _
  rw [getD_map _ _ i 0 0 (by rw [h.2.2]; exact hi)]
  rfl

theorem ofModes_fits (E : ExtLib) (M : Modes) {n : ℕ} (h : 2*M.ellMax+1 ≤ n) :
    gridFits (DataGrid.ofModes E M n n) n := by
  have hm : max n (2*M.ellMax+1) = n := by omega
  refine ⟨?_, ?_, ?_⟩ <;> simp [DataGrid.ofModes, hm]

theorem invConfGrid_fits (v : ThreeVector) (n : ℕ) :
    gridFits (InverseConformalFactorGrid v n n) n := by
  refine ⟨rfl, rfl, ?_⟩
  simp [InverseConformalFactorGrid]

theorem ofModesBoosted_fits (E : ExtLib) (M : Modes) (v : ThreeVector) {n : ℕ}
    (h : 2*M.ellMax+1 ≤ n) :
    ∃ g, DataGrid.ofModesBoosted E M v n n = .ok g ∧ gridFits g n ∧ g.s = M.s ∧
      ∀ i, i < n*n → g.get i = boostedPointVal E M v n n i := by
  have hm : max n (2*M.ellMax+1) = n := by omega
  have heq := ofModesBoosted_eq E M v n n
  rw [hm] at heq
  refine ⟨⟨M.s, n, n, (List.range (n*n)).map (boostedPointVal E M v n n)⟩, heq,
    ⟨rfl, rfl, by simp⟩, rfl, ?_⟩
  intro i hi
  show ((List.range (n*n)).map (boostedPointVal E M v n n)).getD i 0 = _
  rw [getD_map _ _ i 0 0 (by simpa using hi)]
  congr 1
  rw [List.getD_eq_getElem?_getD, List.getElem?_range hi]
  rfl

theorem oneoverKg_fits (v : ThreeVector) (n : ℕ) :
    ∃ g, oneoverKgOf v n = .ok g ∧ gridFits g n ∧ g.s = 0 := by
  have heq := ofFunctor_eq 0 n n v (invConfFunctor v)
  exact ⟨⟨0, n, n, (List.range (n*n)).map (functorPointVal (invConfFunctor v) v n n)⟩,
    heq, ⟨rfl, rfl, by simp⟩, rfl⟩

theorem memberEllMax_le (S : SliceModes) :
    S.psi0.ellMax ≤ S.EllMax ∧ S.psi1.ellMax ≤ S.EllMax ∧ S.psi2.ellMax ≤ S.EllMax ∧
    S.psi3.ellMax ≤ S.EllMax ∧ S.psi4.ellMax ≤ S.EllMax ∧ S.sigma.ellMax ≤ S.EllMax ∧
    S.sigmadot.ellMax ≤ S.EllMax := by
  have h : S.EllMax = max S.psi0.ellMax (max S.psi1.ellMax (max S.psi2.ellMax
      (max S.psi3.ellMax (max S.psi4.ellMax (max S.sigma.ellMax S.sigmadot.ellMax))))) := rfl
  refine ⟨?_, ?_, ?_, ?_, ?_, ?_, ?_⟩ <;> rw [h] <;> omega

theorem ethupokg_fits (E : ExtLib) (u : ℝ) (v : ThreeVector) (delta : Modes) {n : ℕ}
    (hn : 1 ≤ n) (hd : 2*delta.ellMax+1 ≤ n) :
    ∃ g, ethupokgOf E u v delta n = .ok g ∧ gridFits g n := by
  obtain ⟨q2, hdiv, hq2f, _, _⟩ :=
    div_fits ((rsubG_fits (ofModes_fits E delta hd) u).1) (invConfGrid_fits v n)
  have hdiv2 : uprimeGridOf E u v delta n = .ok q2 := hdiv
  have hb : 2*((Modes.ofGrid E q2 0).edth).ellMax + 1 ≤ n := by
    show 2*(max (min ((q2.n_theta - 1)/2) ((q2.n_phi - 1)/2)) 0) + 1 ≤ n
    rw [hq2f.1, hq2f.2.1]
    omega
  obtain ⟨eg, heg, hegf, _, _⟩ := ofModesBoosted_fits E ((Modes.ofGrid E q2 0).edth) v hb
  obtain ⟨Kg, hKg, hKgf, _⟩ := oneoverKg_fits v n
  obtain ⟨C, hC, hCf, _, _⟩ := mul_fits hegf hKgf
  refine ⟨C, ?_, hCf⟩
  rw [ethupokgOf]
  simp only [hdiv2, heg, hKg, hC, bind, Except.bind]

/-- C8 (confirmed): whenever the supertranslation's degree fits the
slice's (so the source's grid algebra is well-sized),
`BMSTransformationOnSlice` succeeds; all seven output grids have
resolution `(2*EllMax()+1) x (2*EllMax()+1)`; and pointwise the outputs
satisfy the exact nested binomial cascade of the claim, with
`K^-1` the inverse-conformal-factor grid and `E = edth(u')/K` the
`ethupokgOf` grid: psi4 with the single term, psi3..psi0 with the
binomial coefficients (1), (2,1), (3,3,1), (4,6,4,1), and
`sigma = K^-1 (sigma - edth^2 delta)`, `sigmadot = K^-2 sigmadot`. -/
theorem C8_theorem (E : ExtLib) (S : SliceModes) (u : ℝ) (v : ThreeVector) (delta : Modes)
    (hd : delta.ellMax ≤ S.EllMax) :
    ∃ B Kg Eg Dg P0 P1 P2 P3 P4 Sg Sdg,
      oneoverKgOf v (2*S.EllMax+1) = .ok Kg ∧
      ethupokgOf E u v delta (2*S.EllMax+1) = .ok Eg ∧
      DataGrid.ofModesBoosted E delta.edth.edth v (2*S.EllMax+1) (2*S.EllMax+1) = .ok Dg ∧
      DataGrid.ofModesBoosted E S.psi0 v (2*S.EllMax+1) (2*S.EllMax+1) = .ok P0 ∧
      DataGrid.ofModesBoosted E S.psi1 v (2*S.EllMax+1) (2*S.EllMax+1) = .ok P1 ∧
      DataGrid.ofModesBoosted E S.psi2 v (2*S.EllMax+1) (2*S.EllMax+1) = .ok P2 ∧
      DataGrid.ofModesBoosted E S.psi3 v (2*S.EllMax+1) (2*S.EllMax+1) = .ok P3 ∧
      DataGrid.ofModesBoosted E S.psi4 v (2*S.EllMax+1) (2*S.EllMax+1) = .ok P4 ∧
      DataGrid.ofModesBoosted E S.sigma v (2*S.EllMax+1) (2*S.EllMax+1) = .ok Sg ∧
      DataGrid.ofModesBoosted E S.sigmadot v (2*S.EllMax+1) (2*S.EllMax+1) = .ok Sdg ∧
      S.BMSTransformationOnSlice E u v delta = .ok B ∧
      (B.psi0.n_theta = 2*S.EllMax+1 ∧ B.psi0.n_phi = 2*S.EllMax+1 ∧
       B.psi1.n_theta = 2*S.EllMax+1 ∧ B.psi1.n_phi = 2*S.EllMax+1 ∧
       B.psi2.n_theta = 2*S.EllMax+1 ∧ B.psi2.n_phi = 2*S.EllMax+1 ∧
       B.psi3.n_theta = 2*S.EllMax+1 ∧ B.psi3.n_phi = 2*S.EllMax+1 ∧
       B.psi4.n_theta = 2*S.EllMax+1 ∧ B.psi4.n_phi = 2*S.EllMax+1 ∧
       B.sigma.n_theta = 2*S.EllMax+1 ∧ B.sigma.n_phi = 2*S.EllMax+1 ∧
       B.sigmadot.n_theta = 2*S.EllMax+1 ∧ B.sigmadot.n_phi = 2*S.EllMax+1) ∧
      ∀ i, i < (2*S.EllMax+1)*(2*S.EllMax+1) →
        B.psi4.get i = Kg.get i ^ 3 * P4.get i ∧
        B.psi3.get i = Kg.get i ^ 3 * (P3.get i - Eg.get i * P4.get i) ∧
        B.psi2.get i
          = Kg.get i ^ 3 * (P2.get i - Eg.get i * (2*P3.get i - Eg.get i * P4.get i)) ∧
        B.psi1.get i
          = Kg.get i ^ 3 * (P1.get i
              - Eg.get i * (3*P2.get i - Eg.get i * (3*P3.get i - Eg.get i * P4.get i))) ∧
        B.psi0.get i
          = Kg.get i ^ 3 * (P0.get i
              - Eg.get i * (4*P1.get i - Eg.get i * (6*P2.get i
                  - Eg.get i * (4*P3.get i - Eg.get i * P4.get i)))) ∧
        B.sigma.get i = Kg.get i * (Sg.get i - Dg.get i) ∧
        B.sigmadot.get i = Kg.get i ^ 2 * Sdg.get i := by
  obtain ⟨m0, m1, m2, m3, m4, ms, msd⟩ := memberEllMax_le S
  obtain ⟨Kg, hKg, hKgf, _⟩ := oneoverKg_fits v (2*S.EllMax+1)
  obtain ⟨Eg, hEg, hEgf⟩ := ethupokg_fits E u v delta
    (show (1:ℕ) ≤ 2*S.EllMax+1 by omega)
    (show 2*delta.ellMax+1 ≤ 2*S.EllMax+1 by omega)
  obtain ⟨Dg, hDg, hDgf, _, _⟩ := ofModesBoosted_fits E delta.edth.edth v
    (show 2*delta.edth.edth.ellMax+1 ≤ 2*S.EllMax+1 by show 2*delta.ellMax+1 ≤ _; omega)
  obtain ⟨P0, hP0, hP0f, _, _⟩ := ofModesBoosted_fits E S.psi0 v
    (show 2*S.psi0.ellMax+1 ≤ 2*S.EllMax+1 by omega)
  obtain ⟨P1, hP1, hP1f, _, _⟩ := ofModesBoosted_fits E S.psi1 v
    (show 2*S.psi1.ellMax+1 ≤ 2*S.EllMax+1 by omega)
  obtain ⟨P2, hP2, hP2f, _, _⟩ := ofModesBoosted_fits E S.psi2 v
    (show 2*S.psi2.ellMax+1 ≤ 2*S.EllMax+1 by omega)
  obtain ⟨P3, hP3, hP3f, _, _⟩ := ofModesBoosted_fits E S.psi3 v
    (show 2*S.psi3.ellMax+1 ≤ 2*S.EllMax+1 by omega)
  obtain ⟨P4, hP4, hP4f, _, _⟩ := ofModesBoosted_fits E S.psi4 v
    (show 2*S.psi4.ellMax+1 ≤ 2*S.EllMax+1 by omega)
  obtain ⟨Sg, hSg, hSgf, _, _⟩ := ofModesBoosted_fits E S.sigma v
    (show 2*S.sigma.ellMax+1 ≤ 2*S.EllMax+1 by omega)
  obtain ⟨Sdg, hSdg, hSdgf, _, _⟩ := ofModesBoosted_fits E S.sigmadot v
    (show 2*S.sigmadot.ellMax+1 ≤ 2*S.EllMax+1 by omega)
  have hK3 := pow_fits hKgf 3
  have hK2 := pow_fits hKgf 2
  obtain ⟨aE4, haE4, haE4f, _, haE4p⟩ := mul_fits hEgf hP4f
  obtain ⟨w4, hw4, hw4f, _, hw4p⟩ := mul_fits hK3.1 hP4f
  obtain ⟨b3, hb3, hb3f, _, hb3p⟩ := sub_fits hP3f haE4f
  obtain ⟨w3, hw3, hw3f, _, hw3p⟩ := mul_fits hK3.1 hb3f
  obtain ⟨b2, hb2, hb2f, _, hb2p⟩ := sub_fits (rmulG_fits hP3f 2).1 haE4f
  obtain ⟨c2, hc2, hc2f, _, hc2p⟩ := mul_fits hEgf hb2f
  obtain ⟨d2, hd2, hd2f, _, hd2p⟩ := sub_fits hP2f hc2f
  obtain ⟨w2, hw2, hw2f, _, hw2p⟩ := mul_fits hK3.1 hd2f
  obtain ⟨b1, hb1, hb1f, _, hb1p⟩ := sub_fits (rmulG_fits hP3f 3).1 haE4f
  obtain ⟨c1, hc1, hc1f, _, hc1p⟩ := mul_fits hEgf hb1f
  obtain ⟨d1, hd1, hd1f, _, hd1p⟩ := sub_fits (rmulG_fits hP2f 3).1 hc1f
  obtain ⟨e1, he1, he1f, _, he1p⟩ := mul_fits hEgf hd1f
  obtain ⟨f1, hf1, hf1f, _, hf1p⟩ := sub_fits hP1f he1f
  obtain ⟨w1, hw1, hw1f, _, hw1p⟩ := mul_fits hK3.1 hf1f
  obtain ⟨b0, hb0, hb0f, _, hb0p⟩ := sub_fits (rmulG_fits hP3f 4).1 haE4f
  obtain ⟨c0, hc0, hc0f, _, hc0p⟩ := mul_fits hEgf hb0f
  obtain ⟨d0, hd0, hd0f, _, hd0p⟩ := sub_fits (rmulG_fits hP2f 6).1 hc0f
  obtain ⟨e0, he0, he0f, _, he0p⟩ := mul_fits hEgf hd0f
  obtain ⟨f0, hf0, hf0f, _, hf0p⟩ := sub_fits (rmulG_fits hP1f 4).1 he0f
  obtain ⟨g0, hg0, hg0f, _, hg0p⟩ := mul_fits hEgf hf0f
  obtain ⟨h0, hh0, hh0f, _, hh0p⟩ := sub_fits hP0f hg0f
  obtain ⟨w0, hw0, hw0f, _, hw0p⟩ := mul_fits hK3.1 hh0f
  obtain ⟨s1, hs1, hs1f, _, hs1p⟩ := sub_fits hSgf hDgf
  obtain ⟨ws, hws, hwsf, _, hwsp⟩ := mul_fits hKgf hs1f
  obtain ⟨wsd, hwsd, hwsdf, _, hwsdp⟩ := mul_fits hSdgf hK2.1
  have hmain : S.BMSTransformationOnSlice E u v delta
      = .ok ⟨w0, w1, w2, w3, w4, ws, wsd⟩ := by
    rw [SliceModes.BMSTransformationOnSlice]
    simp only [hKg, hEg, hDg, hP0, hP1, hP2, hP3, hP4, hSg, hSdg, hw4, haE4, hb3, hw3,
      hb2, hc2, hd2, hw2, hb1, hc1, hd1, he1, hf1, hw1, hb0, hc0, hd0, he0, hf0, hg0,
      hh0, hw0, hs1, hws, hwsd, bind, Except.bind]
    rfl
  refine ⟨⟨w0, w1, w2, w3, w4, ws, wsd⟩, Kg, Eg, Dg, P0, P1, P2, P3, P4, Sg, Sdg,
    hKg, hEg, hDg, hP0, hP1, hP2, hP3, hP4, hSg, hSdg, hmain,
    ⟨hw0f.1, hw0f.2.1, hw1f.1, hw1f.2.1, hw2f.1, hw2f.2.1, hw3f.1, hw3f.2.1,
     hw4f.1, hw4f.2.1, hwsf.1, hwsf.2.1, hwsdf.1, hwsdf.2.1⟩, ?_⟩
  intro i hi
  refine ⟨?_, ?_, ?_, ?_, ?_, ?_, ?_⟩
  · rw [show (⟨w0, w1, w2, w3, w4, ws, wsd⟩ : SliceGrid).psi4 = w4 from rfl,
      hw4p i hi, hK3.2.2 i hi]
  · rw [show (⟨w0, w1, w2, w3, w4, ws, wsd⟩ : SliceGrid).psi3 = w3 from rfl,
      hw3p i hi, hK3.2.2 i hi, hb3p i hi, haE4p i hi]
  · rw [show (⟨w0, w1, w2, w3, w4, ws, wsd⟩ : SliceGrid).psi2 = w2 from rfl,
      hw2p i hi, hK3.2.2 i hi, hd2p i hi, hc2p i hi, hb2p i hi,
      (rmulG_fits hP3f 2).2.2 i hi, haE4p i hi]
    push_cast
    ring
  · rw [show (⟨w0, w1, w2, w3, w4, ws, wsd⟩ : SliceGrid).psi1 = w1 from rfl,
      hw1p i hi, hK3.2.2 i hi, hf1p i hi, he1p i hi, hd1p i hi, hc1p i hi, hb1p i hi,
      (rmulG_fits hP3f 3).2.2 i hi, (rmulG_fits hP2f 3).2.2 i hi, haE4p i hi]
    push_cast
    ring
  · rw [show (⟨w0, w1, w2, w3, w4, ws, wsd⟩ : SliceGrid).psi0 = w0 from rfl,
      hw0p i hi, hK3.2.2 i hi, hh0p i hi, hg0p i hi, hf0p i hi, he0p i hi, hd0p i hi,
      hc0p i hi, hb0p i hi, (rmulG_fits hP3f 4).2.2 i hi, (rmulG_fits hP2f 6).2.2 i hi,
      (rmulG_fits hP1f 4).2.2 i hi, haE4p i hi]
    push_cast
    ring
  · rw [show (⟨w0, w1, w2, w3, w4, ws, wsd⟩ : SliceGrid).sigma = ws from rfl,
      hwsp i hi, hs1p i hi]
  · rw [show (⟨w0, w1, w2, w3, w4, ws, wsd⟩ : SliceGrid).sigmadot = wsd from rfl,
      hwsdp i hi, hK2.2.2 i hi]
    ring


/-- C8 (witness): the cascade at the concrete slice with zero boost and
zero supertranslation. -/
theorem C8_witness :
    modesA.ellMax ≤ slice4.EllMax ∧
    (    ∃ B Kg Eg Dg P0 P1 P2 P3 P4 Sg Sdg,
      oneoverKgOf zeroVec (2*slice4.EllMax+1) = .ok Kg ∧
      ethupokgOf extZero 0 zeroVec modesA (2*slice4.EllMax+1) = .ok Eg ∧
      DataGrid.ofModesBoosted extZero modesA.edth.edth zeroVec (2*slice4.EllMax+1) (2*slice4.EllMax+1) = .ok Dg ∧
      DataGrid.ofModesBoosted extZero slice4.psi0 zeroVec (2*slice4.EllMax+1) (2*slice4.EllMax+1) = .ok P0 ∧
      DataGrid.ofModesBoosted extZero slice4.psi1 zeroVec (2*slice4.EllMax+1) (2*slice4.EllMax+1) = .ok P1 ∧
      DataGrid.ofModesBoosted extZero slice4.psi2 zeroVec (2*slice4.EllMax+1) (2*slice4.EllMax+1) = .ok P2 ∧
      DataGrid.ofModesBoosted extZero slice4.psi3 zeroVec (2*slice4.EllMax+1) (2*slice4.EllMax+1) = .ok P3 ∧
      DataGrid.ofModesBoosted extZero slice4.psi4 zeroVec (2*slice4.EllMax+1) (2*slice4.EllMax+1) = .ok P4 ∧
      DataGrid.ofModesBoosted extZero slice4.sigma zeroVec (2*slice4.EllMax+1) (2*slice4.EllMax+1) = .ok Sg ∧
      DataGrid.ofModesBoosted extZero slice4.sigmadot zeroVec (2*slice4.EllMax+1) (2*slice4.EllMax+1) = .ok Sdg ∧
      slice4.BMSTransformationOnSlice extZero 0 zeroVec modesA = .ok B ∧
      (B.psi0.n_theta = 2*slice4.EllMax+1 ∧ B.psi0.n_phi = 2*slice4.EllMax+1 ∧
       B.psi1.n_theta = 2*slice4.EllMax+1 ∧ B.psi1.n_phi = 2*slice4.EllMax+1 ∧
       B.psi2.n_theta = 2*slice4.EllMax+1 ∧ B.psi2.n_phi = 2*slice4.EllMax+1 ∧
       B.psi3.n_theta = 2*slice4.EllMax+1 ∧ B.psi3.n_phi = 2*slice4.EllMax+1 ∧
       B.psi4.n_theta = 2*slice4.EllMax+1 ∧ B.psi4.n_phi = 2*slice4.EllMax+1 ∧
       B.sigma.n_theta = 2*slice4.EllMax+1 ∧ B.sigma.n_phi = 2*slice4.EllMax+1 ∧
       B.sigmadot.n_theta = 2*slice4.EllMax+1 ∧ B.sigmadot.n_phi = 2*slice4.EllMax+1) ∧
      ∀ i, i < (2*slice4.EllMax+1)*(2*slice4.EllMax+1) →
        B.psi4.get i = Kg.get i ^ 3 * P4.get i ∧
        B.psi3.get i = Kg.get i ^ 3 * (P3.get i - Eg.get i * P4.get i) ∧
        B.psi2.get i
          = Kg.get i ^ 3 * (P2.get i - Eg.get i * (2*P3.get i - Eg.get i * P4.get i)) ∧
        B.psi1.get i
          = Kg.get i ^ 3 * (P1.get i
              - Eg.get i * (3*P2.get i - Eg.get i * (3*P3.get i - Eg.get i * P4.get i))) ∧
        B.psi0.get i
          = Kg.get i ^ 3 * (P0.get i
              - Eg.get i * (4*P1.get i - Eg.get i * (6*P2.get i
                  - Eg.get i * (4*P3.get i - Eg.get i * P4.get i)))) ∧
        B.sigma.get i = Kg.get i * (Sg.get i - Dg.get i) ∧
        B.sigmadot.get i = Kg.get i ^ 2 * Sdg.get i) :=
  ⟨Nat.le.refl, C8_theorem extZero slice4 0 zeroVec modesA Nat.le.refl⟩

/-! Claim C1: the series-level Moreschi update of the inverse conformal
factor. -/

/-- A crafted backward-transform output: `sqrt(4 pi)` in the ell=0 mode,
`i` in the (1,0) mode, zero elsewhere; it makes the mass of the resulting
supermomentum equal 1 while keeping a nonzero ell=1 coefficient. -/
noncomputable def fA : ℕ → ℂ :=
  fun i => if i = 0 then ((sqrt4pi : ℝ) : ℂ) else if i = 2 then I else 0

/-- External collaborators whose backward transform always returns `fA`
and whose forward transform and spline return 0. -/
noncomputable def extA : ExtLib :=
  ⟨fun _ _ _ _ _ _ => 0, fun _ _ _ _ _ => fA, fun _ _ _ _ => 0, fun _ _ _ => 0⟩

/-- Under `extA`, the grid-to-spectral constructor returns `fA` data. -/
theorem ofGrid_extA (D : DataGrid) (L : ℕ) :
    Modes.ofGrid extA D L = ⟨D.s, max (min ((D.n_theta - 1)/2) ((D.n_phi - 1)/2)) L,
      (List.range (N_lm (max (min ((D.n_theta - 1)/2) ((D.n_phi - 1)/2)) L))).map fA⟩ := rfl

/-- Under `extA`, every spectral product has the fixed shape: summed
spins, summed degrees, and data given by `fA`. -/
theorem modesMul_extA (X M : Modes) :
    Modes.mul extA X M = .ok ⟨X.s + M.s, X.ellMax + M.ellMax,
      (List.range (N_lm (X.ellMax + M.ellMax))).map fA⟩ := by
  have hgX : DataGrid.ofModes extA X (2*(X.ellMax + M.ellMax)+1) (2*(X.ellMax + M.ellMax)+1)
      = ⟨X.s, 2*(X.ellMax + M.ellMax)+1, 2*(X.ellMax + M.ellMax)+1,
          (List.range ((2*(X.ellMax + M.ellMax)+1)*(2*(X.ellMax + M.ellMax)+1))).map
            (extA.salm2map X.s (2*(X.ellMax + M.ellMax)+1) (2*(X.ellMax + M.ellMax)+1)
              X.ellMax X.data)⟩ := by
    have h : max (2*(X.ellMax + M.ellMax)+1) (2*X.ellMax+1) = 2*(X.ellMax + M.ellMax)+1 := by
      omega
    simp only [DataGrid.ofModes, h]
  have hgM : DataGrid.ofModes extA M (2*(X.ellMax + M.ellMax)+1) (2*(X.ellMax + M.ellMax)+1)
      = ⟨M.s, 2*(X.ellMax + M.ellMax)+1, 2*(X.ellMax + M.ellMax)+1,
          (List.range ((2*(X.ellMax + M.ellMax)+1)*(2*(X.ellMax + M.ellMax)+1))).map
            (extA.salm2map M.s (2*(X.ellMax + M.ellMax)+1) (2*(X.ellMax + M.ellMax)+1)
              M.ellMax M.data)⟩ := by
    have h : max (2*(X.ellMax + M.ellMax)+1) (2*M.ellMax+1) = 2*(X.ellMax + M.ellMax)+1 := by
      omega
    simp only [DataGrid.ofModes, h]
  have hE : max (min ((2*(X.ellMax + M.ellMax)+1 - 1)/2) ((2*(X.ellMax + M.ellMax)+1 - 1)/2))
      (max X.ellMax M.ellMax) = X.ellMax + M.ellMax := by omega
  rw [Modes.mul, hgX, hgM, DataGrid.mul, if_neg (by simp)]
  simp only [bind, Except.bind, ofGrid_extA]
  simp [hE]
  rfl

/-- A single-slice supermomentum track at time 0 with zero supermomentum. -/
def SM0 : SuperMomenta := ⟨[0], [⟨0, 0, [0]⟩]⟩

/-- A concrete inverse conformal factor, 1 in the ell=0 mode. -/
def K0c : Modes := ⟨0, 1, [1, 0, 0, 0]⟩

theorem uGrid_SM0_re (i : ℕ) : ((DataGrid.ofModes extA modesA 1 1).get i).re = 0 := by
  have h : (DataGrid.ofModes extA modesA 1 1).get i = 0 := by
    show (((List.range (max 1 (2*modesA.ellMax+1) * max 1 (2*modesA.ellMax+1))).map
      (extA.salm2map modesA.s (max 1 (2*modesA.ellMax+1)) (max 1 (2*modesA.ellMax+1))
        modesA.ellMax modesA.data)).getD i 0) = 0
    rw [List.getD_eq_getElem?_getD, List.getElem?_map]
    cases (List.range (max 1 (2*modesA.ellMax+1) * max 1 (2*modesA.ellMax+1)))[i]? <;> rfl
  rw [h]
  rfl

theorem bms_SM0 : SuperMomenta.BMSTransform extA SM0 K0c modesA
    = .ok ⟨0, 3, (List.range 16).map fA⟩ := by
  have hfold_max : ∀ l : List ℕ, l.foldl (fun a i => a ⊔ (0:ℝ)) 0 = 0 := by
    intro l
    induction l with
    | nil => rfl
    | cons x l ih =>
      show l.foldl (fun a i => a ⊔ (0:ℝ)) ((0:ℝ) ⊔ 0) = 0
      rw [max_self]
      exact ih
  have hfold_min : ∀ l : List ℕ, l.foldl (fun a i => a ⊓ (0:ℝ)) 0 = 0 := by
    intro l
    induction l with
    | nil => rfl
    | cons x l ih =>
      show l.foldl (fun a i => a ⊓ (0:ℝ)) ((0:ℝ) ⊓ 0) = 0
      rw [min_self]
      exact ih
  have hwin : windowSelect SM0.t 0 0 = (0, 0) := by
    show (max 0 ((iMinLoop SM0.t 0 0 (SM0.t.length - 1) : ℤ) - 3),
      min ((SM0.t.length : ℤ) - 1)
        (max (max 0 ((iMinLoop SM0.t 0 0 (SM0.t.length - 1) : ℤ) - 3) + 7)
          ((iMaxLoop SM0.t 0 (SM0.t.length - 1) : ℤ) + 3))) = (0, 0)
    rw [show SM0.t.length = 1 from rfl]
    rw [show iMinLoop SM0.t 0 0 (1 - 1) = 0 from rfl, show iMaxLoop SM0.t 0 (1 - 1) = 0 from rfl]
    norm_num
  rw [SuperMomenta.BMSTransform]
  simp only [show (SM0.Psi.getD 0 emptyModes).ellMax = 0 from rfl]
  norm_num
  simp only [uGrid_SM0_re, hfold_max, hfold_min]
  rw [show (SM0.t[(0:ℕ)]?.getD 0) = 0 from rfl, show SM0.t[SM0.t.length - 1]?.getD 0 = 0 from rfl]
  simp only [lt_self_iff_false, or_self, if_false, hwin]
  norm_num
  have hK3 : Modes.pow3 extA K0c = .ok ⟨0, 3, (List.range 16).map fA⟩ := by
    rw [Modes.pow3, modesMul_extA K0c K0c]
    simp only [bind, Except.bind]
    rw [modesMul_extA]
    norm_num [N_lm, K0c]
  obtain ⟨dsub, hsub⟩ : ∃ d, Modes.sub (⟨0, 0, [0]⟩ : Modes) modesA.edth2edthbar2
      = .ok ⟨0, 0, d⟩ := ⟨_, rfl⟩
  have hm2 : Modes.mul extA (⟨0, 0, dsub⟩ : Modes) (⟨0, 3, (List.range 16).map fA⟩ : Modes)
      = .ok ⟨0, 3, (List.range 16).map fA⟩ := by
    rw [modesMul_extA]
    norm_num [N_lm]
  have hboost := ofModesBoosted_eq extA (⟨0, 3, (List.range 16).map fA⟩ : Modes)
    (vFromOneOverK K0c) 1 1
  norm_num at hboost
  rw [show ((List.range 1).flatMap fun a => [(a : ℤ)]) = [(0 : ℤ)] from by decide]
  simp only [List.mapM.loop]
  rw [show (SM0.Psi[((0:ℤ)).toNat]?.getD emptyModes) = (⟨0, 0, [0]⟩ : Modes) from rfl]
  simp only [hsub, hK3, hm2, hboost, bind, Except.bind]
  have h49 : floorSqrt (7*7) = 7 := by decide
  simp only [List.reverse_cons, List.reverse_nil, List.nil_append, Functor.map, Except.map,
    pure, Except.pure, List.getElem?_cons_zero, Option.getD_some, DataGrid.ofSize, h49]
  rw [ofGrid_extA]
  norm_num [N_lm]

/-- The supermomentum produced by `BMSTransform` under `extA`. -/
noncomputable def psiA : Modes := ⟨0, 3, (List.range 16).map fA⟩

theorem psiA_get : ∀ i, i < 16 → psiA.get i = fA i := by
  intro i hi
  show ((List.range 16).map fA).getD i 0 = fA i
  rw [getD_map fA _ i 0 0 (by simpa using hi)]
  congr 1
  rw [List.getD_eq_getElem?_getD, List.getElem?_range hi]
  rfl

theorem massOfPsi_psiA : massOfPsi psiA = 1 := by
  have h : fourMomentumOfPsi psiA = (1, 0, 0, 0) := by
    rw [fourMomentumOfPsi, psiA_get 0 (by norm_num), psiA_get 1 (by norm_num),
      psiA_get 2 (by norm_num), psiA_get 3 (by norm_num)]
    norm_num [fA, div_self sqrt4pi_ne_zero, Complex.I_re]
  rw [massOfPsi, h]
  norm_num

theorem bms_psiA : SuperMomenta.BMSTransform extA SM0 K0c modesA = .ok psiA := bms_SM0

/-- The grid-derived correction term added to `delta` inside
`MoreschiIteration` on the concrete run. -/
noncomputable def GA : Modes :=
  Modes.ofGrid extA (rdivG (massOfPsi psiA) ((DataGrid.ofModes extA K0c 7 7).pow 3)) 0

/-- The `deltadot`-style derivative bundle of the concrete run. -/
noncomputable def ddA : Modes :=
  ⟨psiA.s, psiA.ellMax, psiA.data.mapIdx fun i c => c + GA.get i⟩

theorem add_psiA_GA : Modes.add psiA GA = .ok ddA := rfl

/-- The pair returned by `MoreschiIteration` on the concrete run. -/
noncomputable def rA : Modes × Modes :=
  (⟨K0c.s, K0c.ellMax, K0c.data.mapIdx fun i c =>
      if i = 0 then psiA.get 0 / ((massOfPsi psiA : ℝ):ℂ)
      else if i = 1 then -psiA.get 1 / ((3*massOfPsi psiA : ℝ):ℂ)
      else if i = 2 then -psiA.get 2 / ((3*massOfPsi psiA : ℝ):ℂ)
      else if i = 3 then -psiA.get 3 / ((3*massOfPsi psiA : ℝ):ℂ)
      else c⟩,
   ⟨modesA.s, modesA.ellMax, modesA.data.mapIdx fun i c =>
      if i < 4 then c
      else ((4 / (((ellOf i : ℝ) - 1)*(ellOf i : ℝ)*((ellOf i : ℝ)+1)*((ellOf i : ℝ)+2)) : ℝ) : ℂ)
             * ddA.get i⟩)

theorem moreschi_SM0_eq :
    SuperMomenta.MoreschiIteration extA SM0 K0c modesA = .ok rA := by
  rw [SuperMomenta.MoreschiIteration, bms_psiA]
  simp only [bind, Except.bind]
  rw [show Modes.add psiA
      (Modes.ofGrid extA (rdivG (massOfPsi psiA) ((DataGrid.ofModes extA K0c 7 7).pow 3)) 0)
      = .ok ddA from add_psiA_GA]
  rfl

theorem rA_get2 : rA.1.get 2 = -I/3 := by
  simp only [rA, Modes.get]
  rw [getD_mapIdx _ K0c.data 2 0 0 (by norm_num [K0c])]
  rw [if_neg (by norm_num), if_neg (by norm_num), if_pos rfl,
    show psiA.data.getD 2 0 = fA 2 from psiA_get 2 (by norm_num), massOfPsi_psiA]
  norm_num [fA]

theorem claimed_value_SM0 : -psiA.get 2 / ((massOfPsi psiA : ℝ):ℂ) = -I := by
  rw [psiA_get 2 (by norm_num), massOfPsi_psiA]
  norm_num [fA]

/-- C1: Corrected.  In `SuperMomenta::MoreschiIteration` the updated
inverse conformal factor satisfies `1/K[0] = Psi_i[0]/M`, but the three
`ell = 1` components are updated to `-Psi_i[k]/(3*M)` (Scri.cpp lines
1160-1163 divide by `3*M`), not the claimed `-Psi_i[k]/M`: the sign flip
is accompanied by an extra factor `1/3`. -/
theorem C1_theorem (E : ExtLib) (SM : SuperMomenta) (K delta : Modes)
    (r : Modes × Modes) (Psi : Modes)
    (hMI : SuperMomenta.MoreschiIteration E SM K delta = .ok r)
    (hB : SuperMomenta.BMSTransform E SM K delta = .ok Psi)
    (hlen : 4 ≤ K.data.length) :
    r.1.get 0 = Psi.get 0 / ((massOfPsi Psi : ℝ):ℂ) ∧
    r.1.get 1 = -Psi.get 1 / ((3*massOfPsi Psi : ℝ):ℂ) ∧
    r.1.get 2 = -Psi.get 2 / ((3*massOfPsi Psi : ℝ):ℂ) ∧
    r.1.get 3 = -Psi.get 3 / ((3*massOfPsi Psi : ℝ):ℂ) := by
  rw [SuperMomenta.MoreschiIteration, hB] at hMI
  simp only [bind, Except.bind] at hMI
  cases hadd : Modes.add Psi
      (Modes.ofGrid E (rdivG (massOfPsi Psi) ((DataGrid.ofModes E K 7 7).pow 3)) 0) with
  | error e => rw [hadd] at hMI; exact absurd hMI (by simp)
  | ok dd =>
    rw [hadd] at hMI
    simp only [pure, Except.pure, Except.ok.injEq] at hMI
    have h1 : r.1 = ⟨K.s, K.ellMax, K.data.mapIdx fun i c =>
        if i = 0 then Psi.get 0 / ((massOfPsi Psi : ℝ):ℂ)
        else if i = 1 then -Psi.get 1 / ((3*massOfPsi Psi : ℝ):ℂ)
        else if i = 2 then -Psi.get 2 / ((3*massOfPsi Psi : ℝ):ℂ)
        else if i = 3 then -Psi.get 3 / ((3*massOfPsi Psi : ℝ):ℂ)
        else c⟩ := by rw [← hMI]
    refine ⟨?_, ?_, ?_, ?_⟩ <;>
      rw [show ∀ j, r.1.get j = (r.1.data.getD j 0) from fun j => rfl, h1] <;>
      rw [getD_mapIdx _ K.data _ 0 0 (by omega)]
    · rw [if_pos rfl]
    · rw [if_neg (by norm_num), if_pos rfl]
    · rw [if_neg (by norm_num), if_neg (by norm_num), if_pos rfl]
    · rw [if_neg (by norm_num), if_neg (by norm_num), if_neg (by norm_num), if_pos rfl]

/-- C1 counterexample: a concrete run (external transforms `extA`, a
single-slice track, trivial conformal factor) in which the supermomentum
returned by `BMSTransform` has `Psi[2] = I` and mass `M = 1`; the code
updates `1/K[2]` to `-I/3` while the claimed update `-Psi[2]/M` is `-I`. -/
theorem C1_counterexample :
    SuperMomenta.MoreschiIteration extA SM0 K0c modesA = .ok rA ∧
    SuperMomenta.BMSTransform extA SM0 K0c modesA = .ok psiA ∧
    rA.1.get 2 = -I/3 ∧
    -psiA.get 2 / ((massOfPsi psiA : ℝ):ℂ) = -I ∧
    (-I/3 : ℂ) ≠ -I :=
  ⟨moreschi_SM0_eq, bms_psiA, rA_get2, claimed_value_SM0, by
    intro h
    have h2 := congrArg Complex.im h
    simp [Complex.div_im] at h2
    norm_num at h2⟩

theorem C1_witness :
    rA.1.get 0 = psiA.get 0 / ((massOfPsi psiA : ℝ):ℂ) ∧
    rA.1.get 2 = -psiA.get 2 / ((3*massOfPsi psiA : ℝ):ℂ) :=
  ⟨(C1_theorem extA SM0 K0c modesA rA psiA moreschi_SM0_eq bms_psiA
      (by norm_num [K0c])).1,
   (C1_theorem extA SM0 K0c modesA rA psiA moreschi_SM0_eq bms_psiA
      (by norm_num [K0c])).2.2.1⟩
